import Mathlib

/-!
# The `init` wizard of qovery-cli (`cmd/init.go`)

A shallow embedding of the interactive project-initialisation wizard.  The terminal
and the remote directory are made explicit:

* the answers the user gives are three streams (confirmations, selections, free-text
  inputs) read through cursors stored in `World`;
* every prompt, every printed collision message, every call of the remote API and every
  entry into one of the wizard functions is appended to `World.log`.

Loops with a counter (`for count < 20`) recurse on the variant `20 - count`; the two name
loops (`for { ... }`) have no bound in the source and take a budget of prompts.
-/

namespace Qovery

/-! ## Data model -/

/-- Modelled from the spec: the declaration of `api.CloudProviderRegion` is not part of
the sources at hand; the wizard reads its `FullName` only. -/
structure CloudProviderRegion where
  FullName : String := ""
  deriving DecidableEq, Repr

/-- Modelled from the spec: the declaration of `api.CloudProvider` is not part of the
sources at hand; the wizard reads `Name` and `Regions`. -/
structure CloudProvider where
  Name : String := ""
  Regions : List CloudProviderRegion := []
  deriving DecidableEq, Repr

/-- Modelled from the spec: the declaration of `api.Project` is not part of the sources at
hand; the wizard reads and writes `Id`, `Name` and `CloudProviderRegion`.  The default
value of every field is Go's zero value, so `({} : Project)` is `api.Project{}`. -/
structure Project where
  Id : String := ""
  Name : String := ""
  CloudProviderRegion : CloudProviderRegion := {}
  deriving DecidableEq, Repr

/-- Modelled from the spec: the declaration of `api.Repository` is not part of the sources
at hand; the wizard reads and writes `Id`, `Name` and `URL`. -/
structure Repository where
  Id : String := ""
  Name : String := ""
  URL : String := ""
  deriving DecidableEq, Repr

/-- Modelled from the spec: `util.QoveryYMLDatabase`, built at `init.go:283`; `Typ` is its
field `Type`, a reserved word here. -/
structure QoveryYMLDatabase where
  Name : String := ""
  Typ : String := ""
  Version : String := ""
  deriving DecidableEq, Repr

/-- Modelled from the spec: `util.QoveryYMLBroker`, built at `init.go:320`; `Typ` is its
field `Type`. -/
structure QoveryYMLBroker where
  Name : String := ""
  Typ : String := ""
  Version : String := ""
  deriving DecidableEq, Repr

/-- Modelled from the spec: the part of `util.QoveryYML` that `initCmd.Run` fills in
(`Qovery.Key`, `Application.*`, `Network.DNS`, `Databases`, `Brokers`), flattened. -/
structure QoveryYML where
  Key : String := ""
  ApplicationProject : String := ""
  ApplicationName : String := ""
  PubliclyAccessible : Bool := false
  DNS : String := ""
  Databases : List QoveryYMLDatabase := []
  Brokers : List QoveryYMLBroker := []
  deriving DecidableEq, Repr

/-- The remote directory as the wizard sees it (package `api`, not part of the sources at
hand): one response per request.  `GetAccount` stands for `api.GetAccount().Id`. -/
structure Api where
  GetAccountId : String
  GetAccount : String
  ListProjects : List Project
  GetProjectByName : String → Option Project
  CreateProject : Project → Project
  ListCloudProviders : List CloudProvider
  ListRepositories : String → List Repository
  GetRepositoryByName : String → String → Option Repository
  CreateRepository : String → Repository → Repository

/-! ## Terminal and trace -/

/-- What a run does that can be observed from outside. -/
inductive Event where
  | call (fn : String)
  | confirm (msg : String) (dflt : String) (answer : Bool)
  | select (options : List String) (msg : String) (dflt : String) (answer : String)
  | input (optional : Bool) (msg : String) (answer : String)
  | print (msg : String)
  | api (op : String) (arg : String)
  | createProject (p : Project)
  | createRepository (projectId : String) (r : Repository)
  deriving DecidableEq, Repr

/-- The state threaded through the wizard. -/
structure World where
  confirmAnswers : Nat → Bool
  selectAnswers : Nat → String
  inputAnswers : Nat → String
  nConfirm : Nat := 0
  nSelect : Nat := 0
  nInput : Nat := 0
  log : List Event := []
  configFileExists : Bool := false
  currentDirectoryPath : String := ""

/-- Append one event to the trace. -/
def World.emit (w : World) (e : Event) : World :=
  { w with log := w.log ++ [e] }

/-- The call `util.AskForConfirmation(flag, msg, dflt)`: the next confirmation.  Every
call in `init.go` passes `false` as the first argument. -/
def AskForConfirmation (_flag : Bool) (msg dflt : String) (w : World) : Bool × World :=
  let a := w.confirmAnswers w.nConfirm
  (a, { w with nConfirm := w.nConfirm + 1, log := w.log ++ [Event.confirm msg dflt a] })

/-- The call `util.AskForSelect(options, msg, dflt)`: the next selection. -/
def AskForSelect (options : List String) (msg dflt : String) (w : World) : String × World :=
  let a := w.selectAnswers w.nSelect
  (a, { w with nSelect := w.nSelect + 1, log := w.log ++ [Event.select options msg dflt a] })

/-- The call `util.AskForInput(optional, msg)`: the next free-text input. -/
def AskForInput (optional : Bool) (msg : String) (w : World) : String × World :=
  let a := w.inputAnswers w.nInput
  (a, { w with nInput := w.nInput + 1, log := w.log ++ [Event.input optional msg a] })

/-- Go's `strings.ToLower` on ASCII text: `A`..`Z` become `a`..`z`.  Characters outside
ASCII, which Go maps through its Unicode tables, are kept as they are here; none occurs in
the labels that the wizard offers. -/
def ToLower (s : String) : String :=
  String.mk (s.data.map Char.toLower)

/-! ## The database sub-wizard (`init.go:249-284`) -/

/-- The options of the first select of `AddDatabaseWizard` (`init.go:251`). -/
def databaseChoices : List String :=
  ["PostgreSQL", "MongoDB", "MySQL", "Redis", "Memcached", "Elasticsearch"]

/-- The `switch choice` of `AddDatabaseWizard` (`init.go:258-274`). -/
def databaseVersionChoices (choice : String) : List String :=
  if choice = "PostgreSQL" then ["12", "11.5", "11.4", "11.2", "11.1", "10.10", "9.6"]
  else if choice = "MongoDB" then ["3.6"]
  else if choice = "MySQL" then ["8.0", "5.7", "5.6", "5.5"]
  else if choice = "Redis" then ["5.0", "4.0", "3.2", "2.8", "2.6"]
  else if choice = "Memcached" then ["1.5", "1.4"]
  else if choice = "Elasticsearch" then ["7.1", "6.8", "5.6", "2.3", "1.5"]
  else []

/-- The function `AddDatabaseWizard` (`init.go:249-284`); `none` is the `nil` pointer. -/
def AddDatabaseWizard (w : World) : Option QoveryYMLDatabase × World :=
  let w := w.emit (Event.call "AddDatabaseWizard")
  let (choice, w) := AskForSelect databaseChoices "Choose the database you want to add" "" w
  if choice = "" then (none, w)
  else
    let versionChoices := databaseVersionChoices choice
    let (versionChoice, w) :=
      AskForSelect versionChoices ("Choose the " ++ choice ++ " version you want") "" w
    if versionChoice = "" then (none, w)
    else
      let (name, w) := AskForInput false "Set the database name" w
      (some { Name := name, Typ := ToLower choice, Version := versionChoice }, w)


/-! ## The broker sub-wizard (`init.go:294-321`) -/

/-- The options of the first select of `AddBrokerWizard` (`init.go:296`). -/
def brokerChoices : List String :=
  ["RabbitMQ", "Kafka"]

/-- The `switch choice` of `AddBrokerWizard` (`init.go:303-311`). -/
def brokerVersionChoices (choice : String) : List String :=
  if choice = "RabbitMQ" then ["3.8", "3.7", "3.6"]
  else if choice = "Kafka" then ["2.3", "2.2", "2.1"]
  else []

/-- The function `AddBrokerWizard` (`init.go:294-321`); `none` is the `nil` pointer. -/
def AddBrokerWizard (w : World) : Option QoveryYMLBroker × World :=
  let w := w.emit (Event.call "AddBrokerWizard")
  let (choice, w) := AskForSelect brokerChoices "Choose the broker you want to add" "" w
  if choice = "" then (none, w)
  else
    let versionChoices := brokerVersionChoices choice
    let (versionChoice, w) :=
      AskForSelect versionChoices ("Choose the " ++ choice ++ " version you want") "" w
    if versionChoice = "" then (none, w)
    else
      let (name, w) := AskForInput false "Set the broker name" w
      (some { Name := name, Typ := ToLower choice, Version := versionChoice }, w)

/-! ## The confirmations of the attachment loops (`init.go:131-137`, `286-292`) -/

/-- The function `askForAddDatabase` (`init.go:131-137`). -/
def askForAddDatabase (firstTime : Bool) (w : World) : Bool × World :=
  if firstTime then
    AskForConfirmation false "Do you need a database? (PostgreSQL, MySQL, MongoDB, ...)" "n" w
  else
    AskForConfirmation false "Do you want to add another database?" "n" w

/-- The function `askForAddBroker` (`init.go:286-292`). -/
def askForAddBroker (firstTime : Bool) (w : World) : Bool × World :=
  if firstTime then
    AskForConfirmation false "Do you need a broker? (RabbitMQ, Kafka, ...)" "n" w
  else
    AskForConfirmation false "Do you want to add another broker?" "n" w

/-! ## The attachment loops of `initCmd.Run` (`init.go:49-90`) -/

/-- The loop `for count < 20 { ... }` of `init.go:50-68` at the given `count`, unrolled
along its variant: `variant` is `20 - count`, the number of values `count` can still take
before the guard fails. -/
def databaseLoopFrom : Nat → Nat → QoveryYML → World → QoveryYML × World
  | 0, _, p, w => (p, w)
  | variant + 1, count, p, w =>
    if count < 20 then
      let (addDatabase, w) :=
        if count = 1 then askForAddDatabase true w else askForAddDatabase false w
      if addDatabase then
        let (db, w) := AddDatabaseWizard w
        let p :=
          match db with
          | some d => { p with Databases := p.Databases ++ [d] }
          | none => p
        databaseLoopFrom variant (count + 1) p w
      else (p, w)
    else (p, w)

/-- The loop of `init.go:50-68`, entered with the given `count` (the source enters it with
`count := 1`).  `databaseLoop_eq` below is the loop's own equation. -/
def databaseLoop (count : Nat) (p : QoveryYML) (w : World) : QoveryYML × World :=
  databaseLoopFrom (20 - count) count p w

/-- The loop `for count < 20 { ... }` of `init.go:72-90` at the given `count`, unrolled
along its variant `20 - count`. -/
def brokerLoopFrom : Nat → Nat → QoveryYML → World → QoveryYML × World
  | 0, _, p, w => (p, w)
  | variant + 1, count, p, w =>
    if count < 20 then
      let (addBroker, w) :=
        if count = 1 then askForAddBroker true w else askForAddBroker false w
      if addBroker then
        let (b, w) := AddBrokerWizard w
        let p :=
          match b with
          | some d => { p with Brokers := p.Brokers ++ [d] }
          | none => p
        brokerLoopFrom variant (count + 1) p w
      else (p, w)
    else (p, w)

/-- The loop of `init.go:72-90`, entered with the given `count` (the source enters it with
`count = 1`).  `brokerLoop_eq` below is the loop's own equation. -/
def brokerLoop (count : Nat) (p : QoveryYML) (w : World) : QoveryYML × World :=
  brokerLoopFrom (20 - count) count p w

/-! ## The region resolver (`init.go:177-199`) -/

/-- The label `fmt.Sprintf("%s/%s", c.Name, r.FullName)`. -/
def regionLabel (c : CloudProvider) (r : CloudProviderRegion) : String :=
  c.Name ++ "/" ++ r.FullName

/-- The two nested `range` loops of `init.go:180-185` that fill `names`. -/
def regionNames (clouds : List CloudProvider) : List String :=
  clouds.foldl
    (fun names c => c.Regions.foldl (fun names r => names ++ [regionLabel c r]) names) []

/-- The inner loop of `init.go:190-195`: `some r` is `return r`. -/
def findRegionIn (c : CloudProvider) (choice : String) :
    List CloudProviderRegion → Option CloudProviderRegion
  | [] => none
  | r :: rs => if regionLabel c r = choice then some r else findRegionIn c choice rs

/-- The outer loop of `init.go:189-196`: `some r` is `return r`. -/
def findRegion (choice : String) : List CloudProvider → Option CloudProviderRegion
  | [] => none
  | c :: cs =>
    match findRegionIn c choice c.Regions with
    | some r => some r
    | none => findRegion choice cs

/-- The function `AskForCloudRegion` (`init.go:177-199`). -/
def AskForCloudRegion (api : Api) (w : World) : CloudProviderRegion × World :=
  let w := w.emit (Event.call "AskForCloudRegion")
  let w := w.emit (Event.api "ListCloudProviders" "")
  let clouds := api.ListCloudProviders
  let names := regionNames clouds
  let (choice, w) :=
    AskForSelect names
      "Choose the region where you want to host your project and applications" "" w
  match findRegion choice clouds with
  | some r => (r, w)
  | none => ({}, w)

/-! ## The project resolver (`init.go:139-175`) -/

/-- The loop of `init.go:144-146` that fills `projectNames`. -/
def projectNames (projects : List Project) : List String :=
  projects.foldl (fun names v => names ++ [v.Name]) ["Create new project"]

/-- The loop `for { ... }` of `init.go:155-162`, given a budget of prompts; `none` means
that the budget ran out with every name so far rejected. -/
def projectNameLoop (api : Api) : Nat → World → Option (String × World)
  | 0, _ => none
  | fuel + 1, w =>
    let (name, w) := AskForInput false "Enter the project name" w
    let w := w.emit (Event.api "GetProjectByName" name)
    if (api.GetProjectByName name).isNone then some (name, w)
    else
      let w := w.emit (Event.print
        ("This project name (" ++ name ++ ") already exists, please choose another one\n"))
      projectNameLoop api fuel w

/-- The loop of `init.go:168-172` with the fallback of line 174. -/
def findProject (choice : String) : List Project → Project
  | [] => {}
  | v :: vs => if v.Name = choice then v else findProject choice vs

/-- The function `AskForProject` (`init.go:139-175`); `fuel` bounds the name prompts. -/
def AskForProject (fuel : Nat) (api : Api) (w : World) : Option (Project × World) :=
  let w := w.emit (Event.call "AskForProject")
  let w := w.emit (Event.api "ListProjects" "")
  let projects := api.ListProjects
  let names := projectNames projects
  let (choice, w) :=
    if names.length > 0 then
      AskForSelect names "Choose the project you want (or create a new one)"
        "Create new project" w
    else ("Create new project", w)
  if choice = "Create new project" then
    match projectNameLoop api fuel w with
    | none => none
    | some (name, w) =>
      let (region, w) := AskForCloudRegion api w
      let project : Project := { Name := name, CloudProviderRegion := region }
      let w := w.emit (Event.createProject project)
      some (api.CreateProject project, w)
  else some (findProject choice projects, w)

/-! ## The repository resolver (`init.go:201-247`) -/

/-- Go's `strings.Split(path, "/")` on the characters of `path`: the pieces between the
separators, in order; there is always at least one piece. -/
def splitPath : List Char → List (List Char)
  | [] => [[]]
  | c :: cs =>
    if c = '/' then [] :: splitPath cs
    else
      match splitPath cs with
      | [] => [[c]]
      | piece :: pieces => (c :: piece) :: pieces

/-- The function `CurrentDirectoryName` (`init.go:323-332`) on the working directory held
in `w` (the result of `os.Getwd`), with `/` for `os.PathSeparator`: the last piece. -/
def CurrentDirectoryName (w : World) : String :=
  String.mk ((splitPath w.currentDirectoryPath.data).getLastD [])

/-- The loop of `init.go:211-213` that fills `repoNames`. -/
def repoNames (repositories : List Repository) : List String :=
  repositories.foldl (fun names v => names ++ [v.Name]) ["Create new application"]

/-- The loop `for { ... }` of `init.go:222-234`, given a budget of prompts.  The comment
of `init.go:204-205` speaks of asking to confirm a name that already exists; the code asks
for another name instead, and so does this definition. -/
def repositoryNameLoop (api : Api) (projectId currentDirectoryName : String) :
    Nat → World → Option (String × World)
  | 0, _ => none
  | fuel + 1, w =>
    let (name, w) :=
      AskForInput true
        ("Enter the application name [default: " ++ currentDirectoryName ++ "]") w
    let name := if name = "" then currentDirectoryName else name
    let w := w.emit (Event.api "GetRepositoryByName" name)
    if (api.GetRepositoryByName projectId name).isNone then some (name, w)
    else
      let w := w.emit (Event.print
        ("This application name (" ++ name ++ ") already exists, please choose another one\n"))
      repositoryNameLoop api projectId currentDirectoryName fuel w

/-- The loop of `init.go:240-244` with the fallback of line 246. -/
def findRepository (choice : String) : List Repository → Repository
  | [] => {}
  | r :: rs => if r.Name = choice then r else findRepository choice rs

/-- The function `AskForRepository` (`init.go:201-247`); `fuel` bounds the name prompts. -/
def AskForRepository (fuel : Nat) (api : Api) (project : Project) (w : World) :
    Option (Repository × World) :=
  let w := w.emit (Event.call "AskForRepository")
  let currentDirectoryName := CurrentDirectoryName w
  let w := w.emit (Event.api "ListRepositories" project.Id)
  let repositories := api.ListRepositories project.Id
  let names := repoNames repositories
  let (choice, w) :=
    if names.length > 0 then
      AskForSelect names "Choose the application you want (or create a new one)"
        "Create new application" w
    else ("Create new application", w)
  if choice = "Create new application" then
    match repositoryNameLoop api project.Id currentDirectoryName fuel w with
    | none => none
    | some (name, w) =>
      let (url, w) := AskForInput false "Enter the application/repository git URL" w
      let repository : Repository := { Name := name, URL := url }
      let w := w.emit (Event.createRepository project.Id repository)
      some (api.CreateRepository project.Id repository, w)
  else some (findRepository choice repositories, w)

/-! ## The command (`init.go:20-116`) -/

/-- How a run of the command ends: `os.Exit(code)` before any prompt, or the artifact
handed to `yaml.Marshal` and written to `.qovery.yml`. -/
inductive Outcome where
  | exit (code : Nat)
  | written (p : QoveryYML)
  deriving DecidableEq, Repr

/-- The steps of `init.go:40-92` once project and repository are resolved. -/
def assemble (api : Api) (project : Project) (repository : Repository) (w : World) :
    QoveryYML × World :=
  let p : QoveryYML := {}
  let p := { p with Key := api.GetAccountId ++ "/" ++ project.Id ++ "/" ++ repository.Id }
  let p := { p with ApplicationProject := project.Name }
  let p := { p with ApplicationName := repository.Name }
  let (pub, w) :=
    AskForConfirmation false "Would you like to make your application publicly accessible?" "y" w
  let p := { p with PubliclyAccessible := pub }
  let (p, w) :=
    if p.PubliclyAccessible then
      let (dns, w) :=
        AskForInput true "Do you want to set a custom domain (ex: api.foo.com)?" w
      ({ p with DNS := dns }, w)
    else (p, w)
  let (p, w) := databaseLoop 1 p w
  let (p, w) := brokerLoop 1 p w
  (p, w)

/-- The function `initCmd.Run` (`init.go:20-116`); `fuel` bounds the name prompts of each
resolver, `none` means that a resolver used up its budget. -/
def Run (fuel : Nat) (api : Api) (w : World) : Option (Outcome × World) :=
  if w.configFileExists then some (Outcome.exit 0, w)
  else if api.GetAccountId = "" ∧ api.GetAccount = "" then some (Outcome.exit 1, w)
  else
    match AskForProject fuel api w with
    | none => none
    | some (project, w) =>
      match AskForRepository fuel api project w with
      | none => none
      | some (repository, w) =>
        let (p, w) := assemble api project repository w
        some (Outcome.written p, w)

end Qovery

namespace Qovery

/-! ## Vocabulary of the statements: traces -/

/-- The events appended to the trace between the state `w` and the later state `w'`. -/
def World.since (w w' : World) : List Event :=
  w'.log.drop w.log.length

/-- A select prompt is well answered when the answer is empty or one of its options; every
other event passes. -/
def Event.answerOffered : Event → Bool
  | Event.select options _ _ answer => decide (answer = "" ∨ answer ∈ options)
  | _ => true

/-- A select prompt that was answered by the empty string. -/
def Event.emptySelect : Event → Bool
  | Event.select _ _ _ answer => decide (answer = "")
  | _ => false

/-- A confirmation prompt. -/
def Event.isConfirm : Event → Bool
  | Event.confirm _ _ _ => true
  | _ => false

/-- Number of confirmations asked in a trace. -/
def confirmations (log : List Event) : Nat :=
  log.countP Event.isConfirm

/-- Number of entries into the function `fn` in a trace. -/
def invocations (fn : String) (log : List Event) : Nat :=
  log.count (Event.call fn)

/-- The custom-domain prompt of `init.go:46`. -/
def Event.isDnsPrompt : Event → Bool
  | Event.input _ msg _ => decide (msg = "Do you want to set a custom domain (ex: api.foo.com)?")
  | _ => false

/-- Number of times the custom-domain prompt was asked in a trace. -/
def dnsPrompts (log : List Event) : Nat :=
  log.countP Event.isDnsPrompt

/-- The events that create something in the remote directory or resolve a region. -/
def Event.createsOrResolvesRegion : Event → Bool
  | Event.createProject _ => true
  | Event.createRepository _ _ => true
  | Event.call fn => decide (fn = "AskForCloudRegion")
  | Event.api op _ => decide (op = "ListCloudProviders")
  | _ => false

/-! ## Vocabulary of the statements: the data model of the specification -/

/-- The database Types of the data model, as the specification enumerates them. -/
def databaseTypes : List String :=
  ["postgresql", "mongodb", "mysql", "redis", "memcached", "elasticsearch"]

/-- The provider-region pairs of a catalog, in provider order and then region order. -/
def flattenedPairs : List CloudProvider → List (CloudProvider × CloudProviderRegion)
  | [] => []
  | c :: cs => c.Regions.map (fun r => (c, r)) ++ flattenedPairs cs

/-- The label of a provider-region pair, written as the specification writes it. -/
def pairLabel (cr : CloudProvider × CloudProviderRegion) : String :=
  cr.1.Name ++ "/" ++ cr.2.FullName

/-- The entry `r` is the first entry of `l` named `choice`, or the zero value `zero` when
no entry of `l` has that name. -/
def FirstNamedOrZero {α : Type} (name : α → String) (zero : α) (choice : String)
    (l : List α) (r : α) : Prop :=
  (∃ pre post, l = pre ++ r :: post ∧ name r = choice ∧ ∀ e ∈ pre, name e ≠ choice) ∨
  ((∀ e ∈ l, name e ≠ choice) ∧ r = zero)

/-! ## Vocabulary of the statements: states and traces of the steps -/

/-- The state after the confirmation `msg` (default `n`) has been asked and answered. -/
def World.confirmed (w : World) (msg : String) : World :=
  { w with
    nConfirm := w.nConfirm + 1
    log := w.log ++ [Event.confirm msg "n" (w.confirmAnswers w.nConfirm)] }

/-- The state after the opening select of a resolver was answered. -/
def World.selected (w : World) (trace : List Event) : World :=
  { w with nSelect := w.nSelect + 1, log := w.log ++ trace }

/-- The question of the database loop at the given `count` (`init.go:52-56`, `131-137`). -/
def databaseQuestion (count : Nat) : String :=
  if count = 1 then "Do you need a database? (PostgreSQL, MySQL, MongoDB, ...)"
  else "Do you want to add another database?"

/-- The question of the broker loop at the given `count` (`init.go:74-78`, `286-292`). -/
def brokerQuestion (count : Nat) : String :=
  if count = 1 then "Do you need a broker? (RabbitMQ, Kafka, ...)"
  else "Do you want to add another broker?"

/-- The statement of `init.go:60-62`: append the attachment unless the pointer is `nil`. -/
def attachDatabase (p : QoveryYML) : Option QoveryYMLDatabase → QoveryYML
  | some d => { p with Databases := p.Databases ++ [d] }
  | none => p

/-- The statement of `init.go:82-84`: append the attachment unless the pointer is `nil`. -/
def attachBroker (p : QoveryYML) : Option QoveryYMLBroker → QoveryYML
  | some b => { p with Brokers := p.Brokers ++ [b] }
  | none => p

/-- The attachment that the sub-wizard builds from the `i`-th pair of select answers and
the `i`-th input pending in `w` (`init.go:283`). -/
def pendingDatabase (w : World) (i : Nat) : QoveryYMLDatabase :=
  { Name := w.inputAnswers (w.nInput + i)
    Typ := ToLower (w.selectAnswers (w.nSelect + 2 * i))
    Version := w.selectAnswers (w.nSelect + 2 * i + 1) }

/-- The artifact as it stands when the attachment loops start (`init.go:40-47`): the
answers pending in `w` are the public-accessibility confirmation and the custom domain. -/
def artifactBeforeLoops (api : Api) (project : Project) (repository : Repository)
    (w : World) : QoveryYML :=
  { Key := api.GetAccountId ++ "/" ++ project.Id ++ "/" ++ repository.Id
    ApplicationProject := project.Name
    ApplicationName := repository.Name
    PubliclyAccessible := w.confirmAnswers w.nConfirm
    DNS := if w.confirmAnswers w.nConfirm = true then w.inputAnswers w.nInput else "" }

/-- The state when the attachment loops start: the public-accessibility confirmation has
been asked and, when it was answered yes, the custom-domain prompt as well. -/
def World.beforeLoops (w : World) : World :=
  if w.confirmAnswers w.nConfirm = true then
    { w with
      nConfirm := w.nConfirm + 1
      nInput := w.nInput + 1
      log := w.log ++
        [Event.confirm "Would you like to make your application publicly accessible?" "y" true,
          Event.input true "Do you want to set a custom domain (ex: api.foo.com)?"
            (w.inputAnswers w.nInput)] }
  else
    { w with
      nConfirm := w.nConfirm + 1
      log := w.log ++
        [Event.confirm "Would you like to make your application publicly accessible?" "y"
          false] }

/-- The trace of the opening of `AskForProject` (`init.go:141-151`). -/
def projectSelectTrace (api : Api) (answer : String) : List Event :=
  [Event.call "AskForProject", Event.api "ListProjects" "",
    Event.select ("Create new project" :: api.ListProjects.map (fun v => v.Name))
      "Choose the project you want (or create a new one)" "Create new project" answer]

/-- The trace of the opening of `AskForRepository` (`init.go:202-218`). -/
def repositorySelectTrace (api : Api) (project : Project) (answer : String) : List Event :=
  [Event.call "AskForRepository", Event.api "ListRepositories" project.Id,
    Event.select
      ("Create new application" :: (api.ListRepositories project.Id).map (fun v => v.Name))
      "Choose the application you want (or create a new one)" "Create new application"
      answer]

/-- The trace of a run of `AskForCloudRegion` (`init.go:177-199`). -/
def regionTrace (api : Api) (answer : String) : List Event :=
  [Event.call "AskForCloudRegion", Event.api "ListCloudProviders" "",
    Event.select ((flattenedPairs api.ListCloudProviders).map pairLabel)
      "Choose the region where you want to host your project and applications" "" answer]

/-- The trace of one rejected round of the project-name loop (`init.go:156-161`). -/
def rejectedProjectName (name : String) : List Event :=
  [Event.input false "Enter the project name" name, Event.api "GetProjectByName" name,
    Event.print
      ("This project name (" ++ name ++ ") already exists, please choose another one\n")]

/-- The trace of the accepted round of the project-name loop (`init.go:156-158`). -/
def acceptedProjectName (name : String) : List Event :=
  [Event.input false "Enter the project name" name, Event.api "GetProjectByName" name]

/-- The state after `k` rejected project names and one accepted name. -/
def World.afterProjectNames (w : World) (k : Nat) : World :=
  { w with
    nInput := w.nInput + (k + 1)
    log := w.log ++
      ((List.range k).flatMap (fun i => rejectedProjectName (w.inputAnswers (w.nInput + i))) ++
        acceptedProjectName (w.inputAnswers (w.nInput + k))) }

/-- The project that `AskForProject` submits for creation (`init.go:164-165`) when the
name entered after `k` rejected names is accepted: that name, and the region resolved
from the select answer that follows the opening select. -/
def submittedProject (api : Api) (w : World) (k : Nat) : Project :=
  { Name := w.inputAnswers (w.nInput + k)
    CloudProviderRegion :=
      match findRegion (w.selectAnswers (w.nSelect + 1)) api.ListCloudProviders with
      | some r => r
      | none => {} }

/-- The trace of a run of `AskForProject` on the creation path with `k` rejected names. -/
def createProjectTrace (api : Api) (w : World) (k : Nat) : List Event :=
  projectSelectTrace api "Create new project" ++
    ((List.range k).flatMap (fun i => rejectedProjectName (w.inputAnswers (w.nInput + i))) ++
      acceptedProjectName (w.inputAnswers (w.nInput + k))) ++
    regionTrace api (w.selectAnswers (w.nSelect + 1)) ++
    [Event.createProject (submittedProject api w k)]

/-- The name that the `i`-th pending input stands for in the application-name loop
(`init.go:223-227`): the input itself, or `cwd` when the input is empty. -/
def enteredRepositoryName (cwd : String) (w : World) (i : Nat) : String :=
  if w.inputAnswers (w.nInput + i) = "" then cwd else w.inputAnswers (w.nInput + i)

/-- The trace of one rejected round of the application-name loop (`init.go:223-233`). -/
def rejectedRepositoryName (cwd input name : String) : List Event :=
  [Event.input true ("Enter the application name [default: " ++ cwd ++ "]") input,
    Event.api "GetRepositoryByName" name,
    Event.print
      ("This application name (" ++ name ++ ") already exists, please choose another one\n")]

/-- The trace of the accepted round of the application-name loop (`init.go:223-231`). -/
def acceptedRepositoryName (cwd input name : String) : List Event :=
  [Event.input true ("Enter the application name [default: " ++ cwd ++ "]") input,
    Event.api "GetRepositoryByName" name]

/-- The state after `k` rejected application names and one accepted name. -/
def World.afterRepositoryNames (w : World) (cwd : String) (k : Nat) : World :=
  { w with
    nInput := w.nInput + (k + 1)
    log := w.log ++
      ((List.range k).flatMap
          (fun i => rejectedRepositoryName cwd (w.inputAnswers (w.nInput + i))
            (enteredRepositoryName cwd w i)) ++
        acceptedRepositoryName cwd (w.inputAnswers (w.nInput + k))
          (enteredRepositoryName cwd w k)) }

/-- The repository that `AskForRepository` submits for creation (`init.go:236-237`) when
the name entered after `k` rejected names is accepted: that name, and the URL given by the
input that follows. -/
def submittedRepository (w : World) (k : Nat) : Repository :=
  { Name := enteredRepositoryName (CurrentDirectoryName w) w k
    URL := w.inputAnswers (w.nInput + (k + 1)) }

/-- The trace of a run of `AskForRepository` on the creation path with `k` rejected
names. -/
def createRepositoryTrace (api : Api) (project : Project) (w : World) (k : Nat) :
    List Event :=
  repositorySelectTrace api project "Create new application" ++
    ((List.range k).flatMap
        (fun i => rejectedRepositoryName (CurrentDirectoryName w)
          (w.inputAnswers (w.nInput + i))
          (enteredRepositoryName (CurrentDirectoryName w) w i)) ++
      acceptedRepositoryName (CurrentDirectoryName w) (w.inputAnswers (w.nInput + k))
        (enteredRepositoryName (CurrentDirectoryName w) w k)) ++
    [Event.input false "Enter the application/repository git URL"
        (w.inputAnswers (w.nInput + (k + 1))),
      Event.createRepository project.Id (submittedRepository w k)]

/-! ## Example directories and terminals -/

/-- An example remote directory with one project, two providers and one repository. -/
def demoApi : Api :=
  { GetAccountId := "acct123"
    GetAccount := ""
    ListProjects := [⟨"1", "shop", ⟨"us-east-1"⟩⟩]
    GetProjectByName := fun n => if n = "shop" then some ⟨"1", "shop", ⟨"us-east-1"⟩⟩ else none
    CreateProject := fun p => { p with Id := "9" }
    ListCloudProviders :=
      [⟨"aws", [⟨"us-east-1"⟩, ⟨"eu-west-3"⟩]⟩, ⟨"gcp", [⟨"europe-west1"⟩]⟩]
    ListRepositories := fun _ => [⟨"4", "web", "git@x/web.git"⟩]
    GetRepositoryByName := fun _ n =>
      if n = "web" then some ⟨"4", "web", "git@x/web.git"⟩ else none
    CreateRepository := fun _ r => { r with Id := "7" } }

/-- An example remote directory in which a project is named `Create new project` and an
application is named `Create new application`. -/
def shadowApi : Api :=
  { demoApi with
    ListProjects := [⟨"5", "Create new project", ⟨"eu-west-3"⟩⟩, ⟨"1", "shop", ⟨"us-east-1"⟩⟩]
    GetProjectByName := fun n =>
      if n = "Create new project" then some ⟨"5", "Create new project", ⟨"eu-west-3"⟩⟩
      else if n = "shop" then some ⟨"1", "shop", ⟨"us-east-1"⟩⟩ else none
    ListRepositories := fun _ => [⟨"6", "Create new application", "git@x/old.git"⟩]
    GetRepositoryByName := fun _ n =>
      if n = "Create new application" then
        some ⟨"6", "Create new application", "git@x/old.git"⟩
      else none }

/-- An example terminal: every confirmation is yes, the selects are `PostgreSQL` then
`11.5` then nothing, every input is `main`. -/
def demoWorld : World :=
  { confirmAnswers := fun _ => true
    selectAnswers := fun n => ["PostgreSQL", "11.5"].getD n ""
    inputAnswers := fun _ => "main" }

/-- An example terminal: every confirmation is yes, every type select is `Redis`, every
version select is `5.0`, and the `n`-th input is `db` followed by `n` strokes. -/
def yesWorld : World :=
  { confirmAnswers := fun _ => true
    selectAnswers := fun n => if n % 2 = 0 then "Redis" else "5.0"
    inputAnswers := fun n => "db" ++ String.mk (List.replicate n '|') }

/-- An example terminal: the first two confirmations are yes, the third is no, later ones
are yes again; selects and inputs as in `yesWorld`. -/
def twoThenNoWorld : World :=
  { yesWorld with confirmAnswers := fun n => decide (n ≠ 2) }

/-- An example terminal whose next select answer is the label `gcp/europe-west1`. -/
def regionWorld : World :=
  { confirmAnswers := fun _ => false
    selectAnswers := fun _ => "gcp/europe-west1"
    inputAnswers := fun _ => "" }

/-- An example terminal that picks the existing project `shop`, then the existing
application `web`. -/
def pickWorld : World :=
  { confirmAnswers := fun _ => false
    selectAnswers := fun n => ["shop", "web"].getD n ""
    inputAnswers := fun _ => "" }

/-- An example terminal that asks for a new project, enters the taken name `shop` twice,
then the free name `newco`, and picks the region `aws/us-east-1`. -/
def createWorld : World :=
  { confirmAnswers := fun _ => false
    selectAnswers := fun n => ["Create new project", "aws/us-east-1"].getD n ""
    inputAnswers := fun n => ["shop", "shop", "newco"].getD n "" }

/-- An example terminal that selects the create-new label of the project resolver,
enters the free name `newco` and picks the region `aws/us-east-1`. -/
def shadowProjectWorld : World :=
  { confirmAnswers := fun _ => false
    selectAnswers := fun n => ["Create new project", "aws/us-east-1"].getD n ""
    inputAnswers := fun n => ["newco"].getD n "" }

/-- An example terminal that selects the create-new label of the repository resolver,
enters the free name `api` and the URL `git@x/api.git`. -/
def shadowRepositoryWorld : World :=
  { confirmAnswers := fun _ => false
    selectAnswers := fun _ => "Create new application"
    inputAnswers := fun n => ["api", "git@x/api.git"].getD n "" }

/-- An example terminal: existing project `shop`, new application under the default name
`api` of the working directory, public access declined, both attachment loops declined. -/
def privateWorld : World :=
  { confirmAnswers := fun _ => false
    selectAnswers := fun n => ["shop", "Create new application"].getD n ""
    inputAnswers := fun n => ["", "git@x/api.git"].getD n ""
    currentDirectoryPath := "/home/dev/api" }

/-- The artifact of the run of the command at `demoApi` and `privateWorld`. -/
def privateArtifact : QoveryYML :=
  { Key := "acct123/1/7", ApplicationProject := "shop", ApplicationName := "api" }

/-- The state in which the run of the command at `demoApi` and `privateWorld` ends. -/
def privateWorldEnd : World :=
  { privateWorld with
    nConfirm := 3
    nSelect := 2
    nInput := 2
    log :=
      [Event.call "AskForProject",
        Event.api "ListProjects" "",
        Event.select ["Create new project", "shop"]
          "Choose the project you want (or create a new one)" "Create new project" "shop",
        Event.call "AskForRepository",
        Event.api "ListRepositories" "1",
        Event.select ["Create new application", "web"]
          "Choose the application you want (or create a new one)" "Create new application"
          "Create new application",
        Event.input true "Enter the application name [default: api]" "",
        Event.api "GetRepositoryByName" "api",
        Event.input false "Enter the application/repository git URL" "git@x/api.git",
        Event.createRepository "1" { Name := "api", URL := "git@x/api.git" },
        Event.confirm "Would you like to make your application publicly accessible?" "y" false,
        Event.confirm "Do you need a database? (PostgreSQL, MySQL, MongoDB, ...)" "n" false,
        Event.confirm "Do you need a broker? (RabbitMQ, Kafka, ...)" "n" false] }

/-- An example remote directory as `shadowApi`, except that its lookups by name find
nothing and its creation calls respond with the entity that already carries the submitted
name. -/
def upsertApi : Api :=
  { shadowApi with
    GetProjectByName := fun _ => none
    CreateProject := fun p =>
      if p.Name = "Create new project" then ⟨"5", "Create new project", ⟨"eu-west-3"⟩⟩
      else { p with Id := "9" }
    GetRepositoryByName := fun _ _ => none
    CreateRepository := fun _ r =>
      if r.Name = "Create new application" then
        ⟨"6", "Create new application", "git@x/old.git"⟩
      else { r with Id := "7" } }

/-- An example terminal that selects the create-new label of the project resolver and
enters that same string as the name of the new project. -/
def upsertProjectWorld : World :=
  { confirmAnswers := fun _ => false
    selectAnswers := fun n => ["Create new project", "aws/us-east-1"].getD n ""
    inputAnswers := fun _ => "Create new project" }

/-- An example terminal that selects the create-new label of the repository resolver and
enters that same string as the name of the new application. -/
def upsertRepositoryWorld : World :=
  { confirmAnswers := fun _ => false
    selectAnswers := fun _ => "Create new application"
    inputAnswers := fun n => ["Create new application", "git@x/old.git"].getD n "" }

end Qovery

namespace Qovery

/-! ## The sub-wizards, case by case -/

theorem AddDatabaseWizard_cancel_type (w : World) (h : w.selectAnswers w.nSelect = "") :
    AddDatabaseWizard w =
      (none, { w with
        nSelect := w.nSelect + 1
        log := w.log ++ [Event.call "AddDatabaseWizard",
          Event.select databaseChoices "Choose the database you want to add" "" ""] }) := by
  simp [AddDatabaseWizard, AskForSelect, World.emit, h]

theorem AddDatabaseWizard_cancel_version (w : World) (h : w.selectAnswers w.nSelect ≠ "")
    (hv : w.selectAnswers (w.nSelect + 1) = "") :
    AddDatabaseWizard w =
      (none, { w with
        nSelect := w.nSelect + 2
        log := w.log ++ [Event.call "AddDatabaseWizard",
          Event.select databaseChoices "Choose the database you want to add" ""
            (w.selectAnswers w.nSelect),
          Event.select (databaseVersionChoices (w.selectAnswers w.nSelect))
            ("Choose the " ++ w.selectAnswers w.nSelect ++ " version you want") "" ""] }) := by
  simp [AddDatabaseWizard, AskForSelect, World.emit, h, hv]

theorem AddDatabaseWizard_attach (w : World) (h : w.selectAnswers w.nSelect ≠ "")
    (hv : w.selectAnswers (w.nSelect + 1) ≠ "") :
    AddDatabaseWizard w =
      (some { Name := w.inputAnswers w.nInput, Typ := ToLower (w.selectAnswers w.nSelect),
              Version := w.selectAnswers (w.nSelect + 1) },
       { w with
        nSelect := w.nSelect + 2
        nInput := w.nInput + 1
        log := w.log ++ [Event.call "AddDatabaseWizard",
          Event.select databaseChoices "Choose the database you want to add" ""
            (w.selectAnswers w.nSelect),
          Event.select (databaseVersionChoices (w.selectAnswers w.nSelect))
            ("Choose the " ++ w.selectAnswers w.nSelect ++ " version you want") ""
            (w.selectAnswers (w.nSelect + 1)),
          Event.input false "Set the database name" (w.inputAnswers w.nInput)] }) := by
  simp [AddDatabaseWizard, AskForSelect, AskForInput, World.emit, h, hv]

/-- What `AddDatabaseWizard` leaves alone: the answers, the confirmation cursor and the
confirmations of the trace; it adds one entry into itself. -/
theorem AddDatabaseWizard_frame (w : World) :
    (AddDatabaseWizard w).2.confirmAnswers = w.confirmAnswers ∧
    (AddDatabaseWizard w).2.selectAnswers = w.selectAnswers ∧
    (AddDatabaseWizard w).2.inputAnswers = w.inputAnswers ∧
    (AddDatabaseWizard w).2.nConfirm = w.nConfirm ∧
    confirmations (AddDatabaseWizard w).2.log = confirmations w.log ∧
    invocations "AddDatabaseWizard" (AddDatabaseWizard w).2.log =
      invocations "AddDatabaseWizard" w.log + 1 := by
  by_cases h : w.selectAnswers w.nSelect = ""
  · rw [AddDatabaseWizard_cancel_type w h]
    simp [confirmations, invocations, Event.isConfirm, List.countP_cons, List.count_cons]
  by_cases hv : w.selectAnswers (w.nSelect + 1) = ""
  · rw [AddDatabaseWizard_cancel_version w h hv]
    simp [confirmations, invocations, Event.isConfirm, List.countP_cons, List.count_cons]
  rw [AddDatabaseWizard_attach w h hv]
  simp [confirmations, invocations, Event.isConfirm, List.countP_cons, List.count_cons]

/-- What `AddBrokerWizard` leaves alone: the confirmations; it adds one entry into
itself. -/
theorem AddBrokerWizard_frame (w : World) :
    (AddBrokerWizard w).2.confirmAnswers = w.confirmAnswers ∧
    (AddBrokerWizard w).2.nConfirm = w.nConfirm ∧
    confirmations (AddBrokerWizard w).2.log = confirmations w.log ∧
    invocations "AddBrokerWizard" (AddBrokerWizard w).2.log =
      invocations "AddBrokerWizard" w.log + 1 := by
  by_cases h : w.selectAnswers w.nSelect = ""
  · simp [AddBrokerWizard, AskForSelect, World.emit, h, confirmations, invocations,
      Event.isConfirm, List.countP_cons, List.count_cons]
  by_cases hv : w.selectAnswers (w.nSelect + 1) = ""
  · simp [AddBrokerWizard, AskForSelect, World.emit, h, hv, confirmations, invocations,
      Event.isConfirm, List.countP_cons, List.count_cons]
  simp [AddBrokerWizard, AskForSelect, AskForInput, World.emit, h, hv, confirmations,
    invocations, Event.isConfirm, List.countP_cons, List.count_cons]

/-! ## The state after a confirmation -/

@[simp]
theorem World.confirmed_nConfirm (w : World) (msg : String) :
    (w.confirmed msg).nConfirm = w.nConfirm + 1 := rfl

@[simp]
theorem World.confirmed_confirmAnswers (w : World) (msg : String) :
    (w.confirmed msg).confirmAnswers = w.confirmAnswers := rfl

@[simp]
theorem World.confirmed_selectAnswers (w : World) (msg : String) :
    (w.confirmed msg).selectAnswers = w.selectAnswers := rfl

@[simp]
theorem World.confirmed_inputAnswers (w : World) (msg : String) :
    (w.confirmed msg).inputAnswers = w.inputAnswers := rfl

@[simp]
theorem World.confirmed_nSelect (w : World) (msg : String) :
    (w.confirmed msg).nSelect = w.nSelect := rfl

@[simp]
theorem World.confirmed_nInput (w : World) (msg : String) :
    (w.confirmed msg).nInput = w.nInput := rfl

@[simp]
theorem World.confirmed_log (w : World) (msg : String) :
    (w.confirmed msg).log = w.log ++ [Event.confirm msg "n" (w.confirmAnswers w.nConfirm)] :=
  rfl

theorem confirmations_confirmed (w : World) (msg : String) :
    confirmations (w.confirmed msg).log = confirmations w.log + 1 := by
  simp [confirmations, Event.isConfirm]

theorem invocations_confirmed (fn : String) (w : World) (msg : String) :
    invocations fn (w.confirmed msg).log = invocations fn w.log := by
  simp [invocations, List.count_cons]

/-! ## The database loop, step by step -/

theorem askForAddDatabase_eq (count : Nat) (w : World) :
    (if count = 1 then askForAddDatabase true w else askForAddDatabase false w) =
      (w.confirmAnswers w.nConfirm, w.confirmed (databaseQuestion count)) := by
  by_cases h : count = 1 <;>
    simp [askForAddDatabase, AskForConfirmation, World.confirmed, databaseQuestion, h]

theorem databaseLoop_done (count : Nat) (p : QoveryYML) (w : World) (h : 20 ≤ count) :
    databaseLoop count p w = (p, w) := by
  have h0 : 20 - count = 0 := by omega
  simp [databaseLoop, h0, databaseLoopFrom]

theorem databaseLoop_eq (count : Nat) (p : QoveryYML) (w : World) (h : count < 20) :
    databaseLoop count p w =
      if w.confirmAnswers w.nConfirm = true then
        databaseLoop (count + 1)
          (attachDatabase p (AddDatabaseWizard (w.confirmed (databaseQuestion count))).1)
          (AddDatabaseWizard (w.confirmed (databaseQuestion count))).2
      else (p, w.confirmed (databaseQuestion count)) := by
  obtain ⟨k, hk⟩ : ∃ k, 20 - count = k + 1 := ⟨19 - count, by omega⟩
  have hk2 : 20 - (count + 1) = k := by omega
  simp only [databaseLoop, hk, hk2, databaseLoopFrom, h, if_true, askForAddDatabase_eq]
  by_cases ha : w.confirmAnswers w.nConfirm = true
  · simp only [ha, if_true]
    cases hd : (AddDatabaseWizard (w.confirmed (databaseQuestion count))).1 <;>
      simp [attachDatabase]
  · simp [ha]

theorem databaseLoop_no (count : Nat) (p : QoveryYML) (w : World) (h : count < 20)
    (ha : w.confirmAnswers w.nConfirm = false) :
    databaseLoop count p w = (p, w.confirmed (databaseQuestion count)) := by
  rw [databaseLoop_eq count p w h]
  simp [ha]

theorem databaseLoop_yes (count : Nat) (p : QoveryYML) (w : World) (h : count < 20)
    (ha : w.confirmAnswers w.nConfirm = true) :
    databaseLoop count p w =
      databaseLoop (count + 1)
        (attachDatabase p (AddDatabaseWizard (w.confirmed (databaseQuestion count))).1)
        (AddDatabaseWizard (w.confirmed (databaseQuestion count))).2 := by
  rw [databaseLoop_eq count p w h]
  simp [ha]

/-- The database loop when the user declines after `k` acceptances, `k` below the number
of rounds left: `k + 1` confirmations, `k` sub-wizard runs, and the declined confirmation
is the last thing that happens. -/
theorem databaseLoop_decline (k : Nat) :
    ∀ (count : Nat) (p : QoveryYML) (w : World), count + k < 20 →
      (∀ i, i < k → w.confirmAnswers (w.nConfirm + i) = true) →
      w.confirmAnswers (w.nConfirm + k) = false →
      (databaseLoop count p w).2.nConfirm = w.nConfirm + (k + 1) ∧
      confirmations (databaseLoop count p w).2.log = confirmations w.log + (k + 1) ∧
      invocations "AddDatabaseWizard" (databaseLoop count p w).2.log =
        invocations "AddDatabaseWizard" w.log + k ∧
      (databaseLoop count p w).2.log.getLast? =
        some (Event.confirm (databaseQuestion (count + k)) "n" false) := by
  induction k with
  | zero =>
    intro count p w hc _ hno
    rw [databaseLoop_no count p w (by omega) (by simpa using hno)]
    have hno2 : w.confirmAnswers w.nConfirm = false := by simpa using hno
    simp [confirmations, invocations, Event.isConfirm, List.count_cons, hno2]
  | succ k ih =>
    intro count p w hc hyes hno
    have h0 : w.confirmAnswers w.nConfirm = true := by simpa using hyes 0 (by omega)
    rw [databaseLoop_yes count p w (by omega) h0]
    obtain ⟨f1, -, -, f4, f5, f6⟩ := AddDatabaseWizard_frame (w.confirmed (databaseQuestion count))
    have ih2 := ih (count + 1)
      (attachDatabase p (AddDatabaseWizard (w.confirmed (databaseQuestion count))).1)
      (AddDatabaseWizard (w.confirmed (databaseQuestion count))).2 (by omega)
      (by
        intro i hi
        rw [f1, f4]
        simpa [Nat.add_assoc, Nat.add_comm 1 i] using hyes (i + 1) (by omega))
      (by
        rw [f1, f4]
        simpa [Nat.add_assoc, Nat.add_comm 1 k] using hno)
    obtain ⟨g1, g2, g3, g4⟩ := ih2
    refine ⟨?_, ?_, ?_, ?_⟩
    · rw [g1, f4]; simp; omega
    · rw [g2, f5, confirmations_confirmed]; omega
    · rw [g3, f6, invocations_confirmed]; omega
    · rw [g4]
      simp [Nat.add_assoc, Nat.add_comm 1 k]

/-- The database loop when the user accepts in every round that is left: it stops because
the guard `count < 20` fails, after `20 - count` confirmations and sub-wizard runs. -/
theorem databaseLoop_bound (n : Nat) :
    ∀ (count : Nat) (p : QoveryYML) (w : World), count + n = 20 →
      (∀ i, i < n → w.confirmAnswers (w.nConfirm + i) = true) →
      (databaseLoop count p w).2.nConfirm = w.nConfirm + n ∧
      confirmations (databaseLoop count p w).2.log = confirmations w.log + n ∧
      invocations "AddDatabaseWizard" (databaseLoop count p w).2.log =
        invocations "AddDatabaseWizard" w.log + n := by
  induction n with
  | zero =>
    intro count p w hc _
    rw [databaseLoop_done count p w (by omega)]
    simp
  | succ n ih =>
    intro count p w hc hyes
    have h0 : w.confirmAnswers w.nConfirm = true := by simpa using hyes 0 (by omega)
    rw [databaseLoop_yes count p w (by omega) h0]
    obtain ⟨f1, -, -, f4, f5, f6⟩ := AddDatabaseWizard_frame (w.confirmed (databaseQuestion count))
    obtain ⟨g1, g2, g3⟩ := ih (count + 1)
      (attachDatabase p (AddDatabaseWizard (w.confirmed (databaseQuestion count))).1)
      (AddDatabaseWizard (w.confirmed (databaseQuestion count))).2 (by omega)
      (by
        intro i hi
        rw [f1, f4]
        simpa [Nat.add_assoc, Nat.add_comm 1 i] using hyes (i + 1) (by omega))
    refine ⟨?_, ?_, ?_⟩
    · rw [g1, f4]; simp; omega
    · rw [g2, f5, confirmations_confirmed]; omega
    · rw [g3, f6, invocations_confirmed]; omega

theorem attachDatabase_eq (p : QoveryYML) (o : Option QoveryYMLDatabase) :
    attachDatabase p o = { p with Databases := p.Databases ++ o.toList } := by
  cases o <;> simp [attachDatabase]

/-- Whatever the answers, the database loop only appends to `Databases`, at most one
attachment per round left. -/
theorem databaseLoop_appends (n : Nat) :
    ∀ (count : Nat) (p : QoveryYML) (w : World), 20 - count ≤ n →
      ∃ ds : List QoveryYMLDatabase,
        (databaseLoop count p w).1 = { p with Databases := p.Databases ++ ds } ∧
        ds.length ≤ 20 - count := by
  induction n with
  | zero =>
    intro count p w hc
    rw [databaseLoop_done count p w (by omega)]
    exact ⟨[], by simp, by simp⟩
  | succ n ih =>
    intro count p w hc
    by_cases hlt : count < 20
    · rw [databaseLoop_eq count p w hlt]
      by_cases ha : w.confirmAnswers w.nConfirm = true
      · simp only [ha, if_true]
        obtain ⟨ds, hds, hlen⟩ := ih (count + 1)
          (attachDatabase p (AddDatabaseWizard (w.confirmed (databaseQuestion count))).1)
          (AddDatabaseWizard (w.confirmed (databaseQuestion count))).2 (by omega)
        refine ⟨(AddDatabaseWizard (w.confirmed (databaseQuestion count))).1.toList ++ ds, ?_, ?_⟩
        · rw [hds, attachDatabase_eq]
          simp
        · have : (AddDatabaseWizard (w.confirmed (databaseQuestion count))).1.toList.length ≤ 1 := by
            cases (AddDatabaseWizard (w.confirmed (databaseQuestion count))).1 <;> simp
          simp only [List.length_append]
          omega
      · simp only [ha]
        exact ⟨[], by simp, by simp⟩
    · rw [databaseLoop_done count p w (by omega)]
      exact ⟨[], by simp, by simp⟩

/-- The database loop when every round left is accepted and no select is answered by the
empty string: one attachment per round, in the order of the rounds. -/
theorem databaseLoop_attach_all (n : Nat) :
    ∀ (count : Nat) (p : QoveryYML) (w : World), count + n = 20 →
      (∀ i, i < n → w.confirmAnswers (w.nConfirm + i) = true) →
      (∀ j, j < 2 * n → w.selectAnswers (w.nSelect + j) ≠ "") →
      (databaseLoop count p w).1 =
        { p with Databases := p.Databases ++ (List.range n).map (pendingDatabase w) } := by
  induction n with
  | zero =>
    intro count p w hc _ _
    rw [databaseLoop_done count p w (by omega)]
    simp
  | succ n ih =>
    intro count p w hc hyes hsel
    have h0 : w.confirmAnswers w.nConfirm = true := by simpa using hyes 0 (by omega)
    have s0 : (w.confirmed (databaseQuestion count)).selectAnswers
        (w.confirmed (databaseQuestion count)).nSelect ≠ "" := by
      simpa using hsel 0 (by omega)
    have s1 : (w.confirmed (databaseQuestion count)).selectAnswers
        ((w.confirmed (databaseQuestion count)).nSelect + 1) ≠ "" := by
      simpa using hsel 1 (by omega)
    rw [databaseLoop_yes count p w (by omega) h0,
      AddDatabaseWizard_attach (w.confirmed (databaseQuestion count)) s0 s1]
    rw [ih (count + 1) _ _ (by omega)
      (by
        intro i hi
        simpa [Nat.add_assoc, Nat.add_comm 1 i] using hyes (i + 1) (by omega))
      (by
        intro j hj
        have := hsel (j + 2) (by omega)
        simpa [Nat.add_assoc, Nat.add_comm 2 j] using this)]
    rw [List.range_succ_eq_map, List.map_cons, List.map_map]
    have hfun : (pendingDatabase w ∘ Nat.succ) = pendingDatabase
        { w.confirmed (databaseQuestion count) with
          nSelect := (w.confirmed (databaseQuestion count)).nSelect + 2
          nInput := (w.confirmed (databaseQuestion count)).nInput + 1
          log := (w.confirmed (databaseQuestion count)).log ++
            [Event.call "AddDatabaseWizard",
              Event.select databaseChoices "Choose the database you want to add" ""
                ((w.confirmed (databaseQuestion count)).selectAnswers
                  (w.confirmed (databaseQuestion count)).nSelect),
              Event.select
                (databaseVersionChoices ((w.confirmed (databaseQuestion count)).selectAnswers
                  (w.confirmed (databaseQuestion count)).nSelect))
                ("Choose the " ++ (w.confirmed (databaseQuestion count)).selectAnswers
                  (w.confirmed (databaseQuestion count)).nSelect ++ " version you want") ""
                ((w.confirmed (databaseQuestion count)).selectAnswers
                  ((w.confirmed (databaseQuestion count)).nSelect + 1)),
              Event.input false "Set the database name"
                ((w.confirmed (databaseQuestion count)).inputAnswers
                  (w.confirmed (databaseQuestion count)).nInput)] } := by
      funext i
      simp only [Function.comp, pendingDatabase, World.confirmed_nInput,
        World.confirmed_nSelect, World.confirmed_inputAnswers, World.confirmed_selectAnswers,
        Nat.succ_eq_add_one]
      have e1 : w.nInput + (i + 1) = w.nInput + 1 + i := by omega
      have e2 : w.nSelect + 2 * (i + 1) = w.nSelect + 2 + 2 * i := by omega
      rw [e1, e2]
    rw [hfun]
    simp [attachDatabase, pendingDatabase]

/-! ## The broker loop, step by step -/

theorem askForAddBroker_eq (count : Nat) (w : World) :
    (if count = 1 then askForAddBroker true w else askForAddBroker false w) =
      (w.confirmAnswers w.nConfirm, w.confirmed (brokerQuestion count)) := by
  by_cases h : count = 1 <;>
    simp [askForAddBroker, AskForConfirmation, World.confirmed, brokerQuestion, h]

theorem brokerLoop_done (count : Nat) (p : QoveryYML) (w : World) (h : 20 ≤ count) :
    brokerLoop count p w = (p, w) := by
  have h0 : 20 - count = 0 := by omega
  simp [brokerLoop, h0, brokerLoopFrom]

theorem brokerLoop_eq (count : Nat) (p : QoveryYML) (w : World) (h : count < 20) :
    brokerLoop count p w =
      if w.confirmAnswers w.nConfirm = true then
        brokerLoop (count + 1)
          (attachBroker p (AddBrokerWizard (w.confirmed (brokerQuestion count))).1)
          (AddBrokerWizard (w.confirmed (brokerQuestion count))).2
      else (p, w.confirmed (brokerQuestion count)) := by
  obtain ⟨k, hk⟩ : ∃ k, 20 - count = k + 1 := ⟨19 - count, by omega⟩
  have hk2 : 20 - (count + 1) = k := by omega
  simp only [brokerLoop, hk, hk2, brokerLoopFrom, h, if_true, askForAddBroker_eq]
  by_cases ha : w.confirmAnswers w.nConfirm = true
  · simp only [ha, if_true]
    cases hd : (AddBrokerWizard (w.confirmed (brokerQuestion count))).1 <;>
      simp [attachBroker]
  · simp [ha]

theorem brokerLoop_no (count : Nat) (p : QoveryYML) (w : World) (h : count < 20)
    (ha : w.confirmAnswers w.nConfirm = false) :
    brokerLoop count p w = (p, w.confirmed (brokerQuestion count)) := by
  rw [brokerLoop_eq count p w h]
  simp [ha]

theorem brokerLoop_yes (count : Nat) (p : QoveryYML) (w : World) (h : count < 20)
    (ha : w.confirmAnswers w.nConfirm = true) :
    brokerLoop count p w =
      brokerLoop (count + 1)
        (attachBroker p (AddBrokerWizard (w.confirmed (brokerQuestion count))).1)
        (AddBrokerWizard (w.confirmed (brokerQuestion count))).2 := by
  rw [brokerLoop_eq count p w h]
  simp [ha]

/-- The broker loop when the user declines after `k` acceptances. -/
theorem brokerLoop_decline (k : Nat) :
    ∀ (count : Nat) (p : QoveryYML) (w : World), count + k < 20 →
      (∀ i, i < k → w.confirmAnswers (w.nConfirm + i) = true) →
      w.confirmAnswers (w.nConfirm + k) = false →
      (brokerLoop count p w).2.nConfirm = w.nConfirm + (k + 1) ∧
      confirmations (brokerLoop count p w).2.log = confirmations w.log + (k + 1) ∧
      invocations "AddBrokerWizard" (brokerLoop count p w).2.log =
        invocations "AddBrokerWizard" w.log + k ∧
      (brokerLoop count p w).2.log.getLast? =
        some (Event.confirm (brokerQuestion (count + k)) "n" false) := by
  induction k with
  | zero =>
    intro count p w hc _ hno
    rw [brokerLoop_no count p w (by omega) (by simpa using hno)]
    have hno2 : w.confirmAnswers w.nConfirm = false := by simpa using hno
    simp [confirmations, invocations, Event.isConfirm, List.count_cons, hno2]
  | succ k ih =>
    intro count p w hc hyes hno
    have h0 : w.confirmAnswers w.nConfirm = true := by simpa using hyes 0 (by omega)
    rw [brokerLoop_yes count p w (by omega) h0]
    obtain ⟨f1, f4, f5, f6⟩ := AddBrokerWizard_frame (w.confirmed (brokerQuestion count))
    have ih2 := ih (count + 1)
      (attachBroker p (AddBrokerWizard (w.confirmed (brokerQuestion count))).1)
      (AddBrokerWizard (w.confirmed (brokerQuestion count))).2 (by omega)
      (by
        intro i hi
        rw [f1, f4]
        simpa [Nat.add_assoc, Nat.add_comm 1 i] using hyes (i + 1) (by omega))
      (by
        rw [f1, f4]
        simpa [Nat.add_assoc, Nat.add_comm 1 k] using hno)
    obtain ⟨g1, g2, g3, g4⟩ := ih2
    refine ⟨?_, ?_, ?_, ?_⟩
    · rw [g1, f4]; simp; omega
    · rw [g2, f5, confirmations_confirmed]; omega
    · rw [g3, f6, invocations_confirmed]; omega
    · rw [g4]
      simp [Nat.add_assoc, Nat.add_comm 1 k]

/-- The broker loop when the user accepts in every round that is left. -/
theorem brokerLoop_bound (n : Nat) :
    ∀ (count : Nat) (p : QoveryYML) (w : World), count + n = 20 →
      (∀ i, i < n → w.confirmAnswers (w.nConfirm + i) = true) →
      (brokerLoop count p w).2.nConfirm = w.nConfirm + n ∧
      confirmations (brokerLoop count p w).2.log = confirmations w.log + n ∧
      invocations "AddBrokerWizard" (brokerLoop count p w).2.log =
        invocations "AddBrokerWizard" w.log + n := by
  induction n with
  | zero =>
    intro count p w hc _
    rw [brokerLoop_done count p w (by omega)]
    simp
  | succ n ih =>
    intro count p w hc hyes
    have h0 : w.confirmAnswers w.nConfirm = true := by simpa using hyes 0 (by omega)
    rw [brokerLoop_yes count p w (by omega) h0]
    obtain ⟨f1, f4, f5, f6⟩ := AddBrokerWizard_frame (w.confirmed (brokerQuestion count))
    obtain ⟨g1, g2, g3⟩ := ih (count + 1)
      (attachBroker p (AddBrokerWizard (w.confirmed (brokerQuestion count))).1)
      (AddBrokerWizard (w.confirmed (brokerQuestion count))).2 (by omega)
      (by
        intro i hi
        rw [f1, f4]
        simpa [Nat.add_assoc, Nat.add_comm 1 i] using hyes (i + 1) (by omega))
    refine ⟨?_, ?_, ?_⟩
    · rw [g1, f4]; simp; omega
    · rw [g2, f5, confirmations_confirmed]; omega
    · rw [g3, f6, invocations_confirmed]; omega

/-- Whatever the answers, the broker loop only appends to `Brokers`. -/
theorem brokerLoop_appends (n : Nat) :
    ∀ (count : Nat) (p : QoveryYML) (w : World), 20 - count ≤ n →
      ∃ bs : List QoveryYMLBroker,
        (brokerLoop count p w).1 = { p with Brokers := p.Brokers ++ bs } ∧
        bs.length ≤ 20 - count := by
  induction n with
  | zero =>
    intro count p w hc
    rw [brokerLoop_done count p w (by omega)]
    exact ⟨[], by simp, by simp⟩
  | succ n ih =>
    intro count p w hc
    by_cases hlt : count < 20
    · rw [brokerLoop_eq count p w hlt]
      by_cases ha : w.confirmAnswers w.nConfirm = true
      · simp only [ha, if_true]
        obtain ⟨bs, hbs, hlen⟩ := ih (count + 1)
          (attachBroker p (AddBrokerWizard (w.confirmed (brokerQuestion count))).1)
          (AddBrokerWizard (w.confirmed (brokerQuestion count))).2 (by omega)
        refine ⟨(AddBrokerWizard (w.confirmed (brokerQuestion count))).1.toList ++ bs, ?_, ?_⟩
        · rw [hbs]
          cases (AddBrokerWizard (w.confirmed (brokerQuestion count))).1 <;>
            simp [attachBroker]
        · have : (AddBrokerWizard (w.confirmed (brokerQuestion count))).1.toList.length ≤ 1 := by
            cases (AddBrokerWizard (w.confirmed (brokerQuestion count))).1 <;> simp
          simp only [List.length_append]
          omega
      · simp only [ha]
        exact ⟨[], by simp, by simp⟩
    · rw [brokerLoop_done count p w (by omega)]
      exact ⟨[], by simp, by simp⟩

/-! ## The command after the resolvers -/

theorem assemble_eq (api : Api) (project : Project) (repository : Repository) (w : World) :
    assemble api project repository w =
      brokerLoop 1
        (databaseLoop 1 (artifactBeforeLoops api project repository w) w.beforeLoops).1
        (databaseLoop 1 (artifactBeforeLoops api project repository w) w.beforeLoops).2 := by
  by_cases h : w.confirmAnswers w.nConfirm = true
  · simp [assemble, AskForConfirmation, AskForInput, artifactBeforeLoops, World.beforeLoops, h]
  · simp [assemble, AskForConfirmation, artifactBeforeLoops, World.beforeLoops, h]

/-! ## The region resolver -/

theorem regionNames_inner (c : CloudProvider) (rs : List CloudProviderRegion) :
    ∀ acc : List String,
      rs.foldl (fun names r => names ++ [regionLabel c r]) acc =
        acc ++ rs.map (fun r => pairLabel (c, r)) := by
  induction rs with
  | nil => intro acc; simp
  | cons r rs ih =>
    intro acc
    simp only [List.foldl_cons, List.map_cons]
    rw [ih]
    simp [regionLabel, pairLabel]

theorem regionNames_outer (cs : List CloudProvider) :
    ∀ acc : List String,
      cs.foldl
          (fun names c => c.Regions.foldl (fun names r => names ++ [regionLabel c r]) names)
          acc =
        acc ++ (flattenedPairs cs).map pairLabel := by
  induction cs with
  | nil => intro acc; simp [flattenedPairs]
  | cons c cs ih =>
    intro acc
    simp only [List.foldl_cons, flattenedPairs]
    rw [ih, regionNames_inner]
    simp [List.map_map, Function.comp_def]

theorem regionNames_eq (clouds : List CloudProvider) :
    regionNames clouds = (flattenedPairs clouds).map pairLabel := by
  simp [regionNames, regionNames_outer]

theorem findRegionIn_eq (c : CloudProvider) (choice : String)
    (rs : List CloudProviderRegion) :
    findRegionIn c choice rs =
      ((rs.map (fun r => (c, r))).find? (fun cr => decide (pairLabel cr = choice))).map
        Prod.snd := by
  induction rs with
  | nil => simp [findRegionIn]
  | cons r rs ih =>
    by_cases h : regionLabel c r = choice
    · have h2 : pairLabel (c, r) = choice := h
      simp [findRegionIn, h, List.find?_cons, h2]
    · have h2 : ¬ pairLabel (c, r) = choice := h
      simp [findRegionIn, h, List.find?_cons, h2, ih]

theorem findRegion_eq (choice : String) (cs : List CloudProvider) :
    findRegion choice cs =
      ((flattenedPairs cs).find? (fun cr => decide (pairLabel cr = choice))).map Prod.snd := by
  induction cs with
  | nil => simp [findRegion, flattenedPairs]
  | cons c cs ih =>
    simp only [findRegion, flattenedPairs, List.find?_append, findRegionIn_eq, ih]
    cases hfi : (c.Regions.map (fun r => (c, r))).find? (fun cr => decide (pairLabel cr = choice)) <;>
      simp

theorem mem_flattenedPairs (cs : List CloudProvider)
    (cr : CloudProvider × CloudProviderRegion) (h : cr ∈ flattenedPairs cs) :
    cr.1 ∈ cs ∧ cr.2 ∈ cr.1.Regions := by
  induction cs with
  | nil => simp [flattenedPairs] at h
  | cons c cs ih =>
    simp only [flattenedPairs, List.mem_append, List.mem_map] at h
    rcases h with ⟨r, hr, rfl⟩ | h
    · exact ⟨by simp, hr⟩
    · exact ⟨List.mem_cons_of_mem _ (ih h).1, (ih h).2⟩

theorem find_label_of_nodup {α : Type} (f : α → String) (l : List α)
    (hnd : (l.map f).Nodup) (x : α) (hx : x ∈ l) :
    l.find? (fun y => decide (f y = f x)) = some x := by
  induction l with
  | nil => simp at hx
  | cons a l ih =>
    simp only [List.map_cons, List.nodup_cons, List.mem_map, not_exists, not_and] at hnd
    rcases List.mem_cons.1 hx with rfl | hmem
    · simp [List.find?_cons]
    · have hne : ¬ f a = f x := fun h => hnd.1 x hmem h.symm
      simp [List.find?_cons, hne, ih hnd.2 hmem]

theorem AskForCloudRegion_eq (api : Api) (w : World) :
    AskForCloudRegion api w =
      (match findRegion (w.selectAnswers w.nSelect) api.ListCloudProviders with
        | some r => r
        | none => {},
       w.selected (regionTrace api (w.selectAnswers w.nSelect))) := by
  simp only [AskForCloudRegion, AskForSelect, World.emit, regionNames_eq, World.selected,
    regionTrace]
  cases findRegion (w.selectAnswers w.nSelect) api.ListCloudProviders <;> simp

/-! ## The resolvers on the lookup path -/

theorem projectNames_fold (projects : List Project) :
    ∀ acc : List String,
      projects.foldl (fun names v => names ++ [v.Name]) acc =
        acc ++ projects.map (fun v => v.Name) := by
  induction projects with
  | nil => intro acc; simp
  | cons v vs ih =>
    intro acc
    simp only [List.foldl_cons, List.map_cons]
    rw [ih]
    simp

theorem projectNames_eq (projects : List Project) :
    projectNames projects = "Create new project" :: projects.map (fun v => v.Name) := by
  simp [projectNames, projectNames_fold]

theorem repoNames_fold (repositories : List Repository) :
    ∀ acc : List String,
      repositories.foldl (fun names v => names ++ [v.Name]) acc =
        acc ++ repositories.map (fun v => v.Name) := by
  induction repositories with
  | nil => intro acc; simp
  | cons v vs ih =>
    intro acc
    simp only [List.foldl_cons, List.map_cons]
    rw [ih]
    simp

theorem repoNames_eq (repositories : List Repository) :
    repoNames repositories =
      "Create new application" :: repositories.map (fun v => v.Name) := by
  simp [repoNames, repoNames_fold]

theorem findProject_first (choice : String) (l : List Project) :
    FirstNamedOrZero (fun v : Project => v.Name) {} choice l (findProject choice l) := by
  induction l with
  | nil => right; simp [findProject]
  | cons v vs ih =>
    by_cases h : v.Name = choice
    · left
      refine ⟨[], vs, ?_, ?_, ?_⟩ <;> simp [findProject, h]
    · simp only [findProject, h, if_false]
      rcases ih with ⟨pre, post, hl, hn, hpre⟩ | ⟨hall, hz⟩
      · left
        refine ⟨v :: pre, post, by simpa using hl, hn, ?_⟩
        intro e he
        rcases List.mem_cons.1 he with rfl | he
        · exact h
        · exact hpre e he
      · right
        refine ⟨?_, hz⟩
        intro e he
        rcases List.mem_cons.1 he with rfl | he
        · exact h
        · exact hall e he

theorem findRepository_first (choice : String) (l : List Repository) :
    FirstNamedOrZero (fun v : Repository => v.Name) {} choice l (findRepository choice l) := by
  induction l with
  | nil => right; simp [findRepository]
  | cons v vs ih =>
    by_cases h : v.Name = choice
    · left
      refine ⟨[], vs, ?_, ?_, ?_⟩ <;> simp [findRepository, h]
    · simp only [findRepository, h, if_false]
      rcases ih with ⟨pre, post, hl, hn, hpre⟩ | ⟨hall, hz⟩
      · left
        refine ⟨v :: pre, post, by simpa using hl, hn, ?_⟩
        intro e he
        rcases List.mem_cons.1 he with rfl | he
        · exact h
        · exact hpre e he
      · right
        refine ⟨?_, hz⟩
        intro e he
        rcases List.mem_cons.1 he with rfl | he
        · exact h
        · exact hall e he

theorem findProject_name (choice : String) (l : List Project)
    (h : choice ≠ "Create new project") :
    (findProject choice l).Name ≠ "Create new project" := by
  rcases findProject_first choice l with ⟨_, _, -, hn, -⟩ | ⟨-, hz⟩
  · intro hc
    exact h (hn.symm.trans hc)
  · rw [hz]
    decide

theorem findRepository_name (choice : String) (l : List Repository)
    (h : choice ≠ "Create new application") :
    (findRepository choice l).Name ≠ "Create new application" := by
  rcases findRepository_first choice l with ⟨_, _, -, hn, -⟩ | ⟨-, hz⟩
  · intro hc
    exact h (hn.symm.trans hc)
  · rw [hz]
    decide

theorem AskForProject_lookup (fuel : Nat) (api : Api) (w : World)
    (h : w.selectAnswers w.nSelect ≠ "Create new project") :
    AskForProject fuel api w =
      some (findProject (w.selectAnswers w.nSelect) api.ListProjects,
        w.selected (projectSelectTrace api (w.selectAnswers w.nSelect))) := by
  simp [AskForProject, projectNames_eq, AskForSelect, World.emit, h, World.selected,
    projectSelectTrace]

theorem AskForRepository_lookup (fuel : Nat) (api : Api) (project : Project) (w : World)
    (h : w.selectAnswers w.nSelect ≠ "Create new application") :
    AskForRepository fuel api project w =
      some (findRepository (w.selectAnswers w.nSelect) (api.ListRepositories project.Id),
        w.selected (repositorySelectTrace api project (w.selectAnswers w.nSelect))) := by
  simp [AskForRepository, repoNames_eq, AskForSelect, World.emit, h, World.selected,
    repositorySelectTrace]

theorem since_selected (w : World) (trace : List Event) :
    w.since (w.selected trace) = trace := by
  simp [World.since, World.selected]

/-! ## The resolvers on the creation path -/

theorem projectNameLoop_run (api : Api) (k : Nat) :
    ∀ (fuel : Nat) (w : World), k < fuel →
      (∀ i, i < k → (api.GetProjectByName (w.inputAnswers (w.nInput + i))).isSome = true) →
      (api.GetProjectByName (w.inputAnswers (w.nInput + k))).isNone = true →
      projectNameLoop api fuel w =
        some (w.inputAnswers (w.nInput + k), w.afterProjectNames k) := by
  induction k with
  | zero =>
    intro fuel w hf _ hfree
    obtain ⟨f, rfl⟩ : ∃ f, fuel = f + 1 := ⟨fuel - 1, by omega⟩
    have hfree2 : (api.GetProjectByName (w.inputAnswers w.nInput)).isNone = true := by
      simpa using hfree
    simp [projectNameLoop, AskForInput, World.emit, hfree2, World.afterProjectNames,
      acceptedProjectName]
  | succ k ih =>
    intro fuel w hf htaken hfree
    obtain ⟨f, rfl⟩ : ∃ f, fuel = f + 1 := ⟨fuel - 1, by omega⟩
    have h0 : (api.GetProjectByName (w.inputAnswers w.nInput)).isSome = true := by
      simpa using htaken 0 (by omega)
    have h0n : (api.GetProjectByName (w.inputAnswers w.nInput)).isNone = false := by
      cases hg : api.GetProjectByName (w.inputAnswers w.nInput) <;> simp [hg] at h0 ⊢
    simp only [projectNameLoop, AskForInput, World.emit, h0n]
    rw [ih f _ (by omega)
      (by
        intro i hi
        have := htaken (i + 1) (by omega)
        simpa [Nat.add_assoc, Nat.add_comm 1 i] using this)
      (by
        simpa [Nat.add_assoc, Nat.add_comm 1 k] using hfree)]
    simp [World.afterProjectNames, List.range_succ_eq_map, List.flatMap_map,
      rejectedProjectName, Nat.add_assoc, Nat.add_comm 1]

theorem projectNameLoop_inv (api : Api) (fuel : Nat) :
    ∀ (w : World) (name : String) (w2 : World),
      projectNameLoop api fuel w = some (name, w2) →
      ∃ k, k < fuel ∧
        (∀ i, i < k → (api.GetProjectByName (w.inputAnswers (w.nInput + i))).isSome = true) ∧
        (api.GetProjectByName (w.inputAnswers (w.nInput + k))).isNone = true := by
  induction fuel with
  | zero => intro w name w2 h; simp [projectNameLoop] at h
  | succ f ih =>
    intro w name w2 h
    by_cases hfree : (api.GetProjectByName (w.inputAnswers w.nInput)).isNone = true
    · exact ⟨0, by omega, by intro i hi; omega, by simpa using hfree⟩
    · simp only [projectNameLoop, AskForInput, World.emit, hfree] at h
      obtain ⟨k, hk, htaken, hk0⟩ := ih _ name w2 h
      refine ⟨k + 1, by omega, ?_, by simpa [Nat.add_assoc, Nat.add_comm 1 k] using hk0⟩
      intro i hi
      cases i with
      | zero =>
        cases hg : api.GetProjectByName (w.inputAnswers w.nInput) <;> simp [hg] at hfree ⊢
      | succ j =>
        have := htaken j (by omega)
        simpa [Nat.add_assoc, Nat.add_comm 1 j] using this

theorem AskForProject_create (fuel : Nat) (api : Api) (w : World)
    (h : w.selectAnswers w.nSelect = "Create new project") :
    AskForProject fuel api w =
      match projectNameLoop api fuel (w.selected (projectSelectTrace api "Create new project")) with
      | none => none
      | some (name, w2) =>
        some (api.CreateProject
            { Name := name, CloudProviderRegion := (AskForCloudRegion api w2).1 },
          (AskForCloudRegion api w2).2.emit
            (Event.createProject
              { Name := name, CloudProviderRegion := (AskForCloudRegion api w2).1 })) := by
  simp only [AskForProject, projectNames_eq, AskForSelect, World.emit, h, World.selected,
    projectSelectTrace]
  simp

/-- The creation path of `AskForProject` when the name entered after `k` rejected names is
free and the budget allows `k + 1` prompts. -/
theorem AskForProject_create_run (fuel : Nat) (api : Api) (w : World) (k : Nat)
    (h : w.selectAnswers w.nSelect = "Create new project") (hk : k < fuel)
    (htaken : ∀ i, i < k →
      (api.GetProjectByName (w.inputAnswers (w.nInput + i))).isSome = true)
    (hfree : (api.GetProjectByName (w.inputAnswers (w.nInput + k))).isNone = true) :
    AskForProject fuel api w =
      some (api.CreateProject (submittedProject api w k),
        { w with
          nSelect := w.nSelect + 2
          nInput := w.nInput + (k + 1)
          log := w.log ++ createProjectTrace api w k }) := by
  rw [AskForProject_create fuel api w h,
    projectNameLoop_run api k fuel _ hk (by simpa [World.selected] using htaken)
      (by simpa [World.selected] using hfree)]
  simp [AskForCloudRegion_eq, World.emit, World.selected, World.afterProjectNames,
    createProjectTrace, submittedProject]

end Qovery

namespace Qovery

theorem AskForRepository_create (fuel : Nat) (api : Api) (project : Project) (w : World)
    (h : w.selectAnswers w.nSelect = "Create new application") :
    AskForRepository fuel api project w =
      match repositoryNameLoop api project.Id (CurrentDirectoryName w) fuel
          (w.selected (repositorySelectTrace api project "Create new application")) with
      | none => none
      | some (name, w2) =>
        some (api.CreateRepository project.Id
            { Name := name, URL := w2.inputAnswers w2.nInput },
          { w2 with
            nInput := w2.nInput + 1
            log := w2.log ++
              [Event.input false "Enter the application/repository git URL"
                  (w2.inputAnswers w2.nInput),
                Event.createRepository project.Id
                  { Name := name, URL := w2.inputAnswers w2.nInput }] }) := by
  simp only [AskForRepository, repoNames_eq, AskForSelect, AskForInput, World.emit, h,
    World.selected, repositorySelectTrace, CurrentDirectoryName]
  simp

theorem repositoryNameLoop_run (api : Api) (projectId cwd : String) (k : Nat) :
    ∀ (fuel : Nat) (w : World), k < fuel →
      (∀ i, i < k →
        (api.GetRepositoryByName projectId (enteredRepositoryName cwd w i)).isSome = true) →
      (api.GetRepositoryByName projectId (enteredRepositoryName cwd w k)).isNone = true →
      repositoryNameLoop api projectId cwd fuel w =
        some (enteredRepositoryName cwd w k, w.afterRepositoryNames cwd k) := by
  induction k with
  | zero =>
    intro fuel w hf _ hfree
    obtain ⟨f, rfl⟩ : ∃ f, fuel = f + 1 := ⟨fuel - 1, by omega⟩
    have hfree2 : (api.GetRepositoryByName projectId
        (if w.inputAnswers w.nInput = "" then cwd else w.inputAnswers w.nInput)).isNone =
        true := by
      simpa [enteredRepositoryName] using hfree
    simp [repositoryNameLoop, AskForInput, World.emit, hfree2, World.afterRepositoryNames,
      acceptedRepositoryName, enteredRepositoryName]
  | succ k ih =>
    intro fuel w hf htaken hfree
    obtain ⟨f, rfl⟩ : ∃ f, fuel = f + 1 := ⟨fuel - 1, by omega⟩
    have h0 : (api.GetRepositoryByName projectId
        (if w.inputAnswers w.nInput = "" then cwd else w.inputAnswers w.nInput)).isSome =
        true := by
      simpa [enteredRepositoryName] using htaken 0 (by omega)
    have h0n : (api.GetRepositoryByName projectId
        (if w.inputAnswers w.nInput = "" then cwd else w.inputAnswers w.nInput)).isNone =
        false := by
      cases hg : api.GetRepositoryByName projectId
        (if w.inputAnswers w.nInput = "" then cwd else w.inputAnswers w.nInput) <;>
        simp [hg] at h0 ⊢
    simp only [repositoryNameLoop, AskForInput, World.emit, h0n]
    rw [ih f _ (by omega)
      (by
        intro i hi
        have := htaken (i + 1) (by omega)
        simpa [enteredRepositoryName, Nat.add_assoc, Nat.add_comm 1 i] using this)
      (by
        simpa [enteredRepositoryName, Nat.add_assoc, Nat.add_comm 1 k] using hfree)]
    simp [World.afterRepositoryNames, List.range_succ_eq_map, List.flatMap_map,
      rejectedRepositoryName, enteredRepositoryName, Nat.add_assoc, Nat.add_comm 1]

theorem repositoryNameLoop_inv (api : Api) (projectId cwd : String) (fuel : Nat) :
    ∀ (w : World) (name : String) (w2 : World),
      repositoryNameLoop api projectId cwd fuel w = some (name, w2) →
      ∃ k, k < fuel ∧
        (∀ i, i < k →
          (api.GetRepositoryByName projectId (enteredRepositoryName cwd w i)).isSome = true) ∧
        (api.GetRepositoryByName projectId (enteredRepositoryName cwd w k)).isNone = true := by
  induction fuel with
  | zero => intro w name w2 h; simp [repositoryNameLoop] at h
  | succ f ih =>
    intro w name w2 h
    by_cases hfree : (api.GetRepositoryByName projectId
        (if w.inputAnswers w.nInput = "" then cwd else w.inputAnswers w.nInput)).isNone = true
    · exact ⟨0, by omega, by intro i hi; omega, by simpa [enteredRepositoryName] using hfree⟩
    · simp only [repositoryNameLoop, AskForInput, World.emit] at h
      rw [if_neg hfree] at h
      obtain ⟨k, hk, htaken, hk0⟩ := ih _ name w2 h
      refine ⟨k + 1, by omega, ?_,
        by simpa [enteredRepositoryName, Nat.add_assoc, Nat.add_comm 1 k] using hk0⟩
      intro i hi
      cases i with
      | zero =>
        cases hg : api.GetRepositoryByName projectId
          (if w.inputAnswers w.nInput = "" then cwd else w.inputAnswers w.nInput) <;>
          simp [hg, enteredRepositoryName] at hfree ⊢
      | succ j =>
        have := htaken j (by omega)
        simpa [enteredRepositoryName, Nat.add_assoc, Nat.add_comm 1 j] using this

/-- The creation path of `AskForRepository` when the name entered after `k` rejected names
is free and the budget allows `k + 1` prompts. -/
theorem AskForRepository_create_run (fuel : Nat) (api : Api) (project : Project) (w : World)
    (k : Nat) (h : w.selectAnswers w.nSelect = "Create new application") (hk : k < fuel)
    (htaken : ∀ i, i < k →
      (api.GetRepositoryByName project.Id
        (enteredRepositoryName (CurrentDirectoryName w) w i)).isSome = true)
    (hfree : (api.GetRepositoryByName project.Id
        (enteredRepositoryName (CurrentDirectoryName w) w k)).isNone = true) :
    AskForRepository fuel api project w =
      some (api.CreateRepository project.Id (submittedRepository w k),
        { w with
          nSelect := w.nSelect + 1
          nInput := w.nInput + (k + 2)
          log := w.log ++ createRepositoryTrace api project w k }) := by
  rw [AskForRepository_create fuel api project w h,
    repositoryNameLoop_run api project.Id (CurrentDirectoryName w) k fuel _ hk
      (by simpa [World.selected, enteredRepositoryName] using htaken)
      (by simpa [World.selected, enteredRepositoryName] using hfree)]
  simp [World.selected, World.afterRepositoryNames, createRepositoryTrace,
    submittedRepository, enteredRepositoryName, Nat.add_assoc]

/-- A returning run of `AskForProject` on the creation path returns the response of
`CreateProject` to a project whose name the lookup did not find. -/
theorem AskForProject_create_result (fuel : Nat) (api : Api) (w : World) (r : Project)
    (w2 : World) (h : w.selectAnswers w.nSelect = "Create new project")
    (hrun : AskForProject fuel api w = some (r, w2)) :
    ∃ k, k < fuel ∧ r = api.CreateProject (submittedProject api w k) ∧
      api.GetProjectByName (submittedProject api w k).Name = none := by
  have hrun0 := hrun
  rw [AskForProject_create fuel api w h] at hrun
  cases hloop : projectNameLoop api fuel
      (w.selected (projectSelectTrace api "Create new project")) with
  | none => simp [hloop] at hrun
  | some res =>
    obtain ⟨name, w3⟩ := res
    obtain ⟨k, hk, htaken, hfree⟩ := projectNameLoop_inv api fuel _ name w3 hloop
    have hrun2 := AskForProject_create_run fuel api w k h hk
      (by simpa [World.selected] using htaken) (by simpa [World.selected] using hfree)
    rw [hrun0] at hrun2
    simp only [Option.some.injEq, Prod.mk.injEq] at hrun2
    refine ⟨k, hk, hrun2.1, ?_⟩
    cases hg : api.GetProjectByName (w.inputAnswers (w.nInput + k)) with
    | none => simpa [submittedProject] using hg
    | some v => simp [World.selected, hg] at hfree

/-- A returning run of `AskForRepository` on the creation path returns the response of
`CreateRepository` to a repository whose name the lookup did not find. -/
theorem AskForRepository_create_result (fuel : Nat) (api : Api) (project : Project)
    (w : World) (r : Repository) (w2 : World)
    (h : w.selectAnswers w.nSelect = "Create new application")
    (hrun : AskForRepository fuel api project w = some (r, w2)) :
    ∃ k, k < fuel ∧ r = api.CreateRepository project.Id (submittedRepository w k) ∧
      api.GetRepositoryByName project.Id (submittedRepository w k).Name = none := by
  have hrun0 := hrun
  rw [AskForRepository_create fuel api project w h] at hrun
  cases hloop : repositoryNameLoop api project.Id (CurrentDirectoryName w) fuel
      (w.selected (repositorySelectTrace api project "Create new application")) with
  | none => simp [hloop] at hrun
  | some res =>
    obtain ⟨name, w3⟩ := res
    obtain ⟨k, hk, htaken, hfree⟩ :=
      repositoryNameLoop_inv api project.Id _ fuel _ name w3 hloop
    have htaken2 : ∀ i, i < k → (api.GetRepositoryByName project.Id
        (enteredRepositoryName (CurrentDirectoryName w) w i)).isSome = true := by
      simpa [World.selected, enteredRepositoryName] using htaken
    have hfree2 : (api.GetRepositoryByName project.Id
        (enteredRepositoryName (CurrentDirectoryName w) w k)).isNone = true := by
      simpa [World.selected, enteredRepositoryName] using hfree
    have hrun2 := AskForRepository_create_run fuel api project w k h hk htaken2 hfree2
    rw [hrun0] at hrun2
    simp only [Option.some.injEq, Prod.mk.injEq] at hrun2
    refine ⟨k, hk, hrun2.1, ?_⟩
    cases hg : api.GetRepositoryByName project.Id
        (enteredRepositoryName (CurrentDirectoryName w) w k) with
    | none => simpa [submittedRepository] using hg
    | some v => simp [hg] at hfree2

theorem AskForRepository_all_taken (fuel : Nat) (api : Api) (project : Project) (w : World)
    (h : w.selectAnswers w.nSelect = "Create new application")
    (hall : ∀ i, i < fuel → (api.GetRepositoryByName project.Id
      (enteredRepositoryName (CurrentDirectoryName w) w i)).isSome = true) :
    AskForRepository fuel api project w = none := by
  cases hrun : AskForRepository fuel api project w with
  | none => rfl
  | some res =>
    obtain ⟨r, w2⟩ := res
    obtain ⟨k, hk, -, hfree⟩ := AskForRepository_create_result fuel api project w r w2 h hrun
    have := hall k hk
    have hfree2 : api.GetRepositoryByName project.Id
        (enteredRepositoryName (CurrentDirectoryName w) w k) = none := hfree
    rw [hfree2] at this
    simp at this

theorem AskForProject_all_taken (fuel : Nat) (api : Api) (w : World)
    (h : w.selectAnswers w.nSelect = "Create new project")
    (hall : ∀ i, i < fuel →
      (api.GetProjectByName (w.inputAnswers (w.nInput + i))).isSome = true) :
    AskForProject fuel api w = none := by
  cases hrun : AskForProject fuel api w with
  | none => rfl
  | some res =>
    obtain ⟨r, w2⟩ := res
    obtain ⟨k, hk, -, hfree⟩ := AskForProject_create_result fuel api w r w2 h hrun
    have := hall k hk
    have hfree2 : api.GetProjectByName (w.inputAnswers (w.nInput + k)) = none := hfree
    rw [hfree2] at this
    simp at this

/-! ## Counting the custom-domain prompt -/

theorem dnsPrompts_append (l l2 : List Event) :
    dnsPrompts (l ++ l2) = dnsPrompts l + dnsPrompts l2 := by
  simp [dnsPrompts]

theorem application_prompt_ne (cwd : String) :
    ("Enter the application name [default: " ++ cwd ++ "]") ≠
      "Do you want to set a custom domain (ex: api.foo.com)?" := by
  intro h
  have h2 := congrArg (fun s : String => s.data.head?) h
  simp [String.data_append] at h2

theorem dnsPrompts_AddDatabaseWizard (w : World) :
    dnsPrompts (AddDatabaseWizard w).2.log = dnsPrompts w.log := by
  by_cases h : w.selectAnswers w.nSelect = ""
  · rw [AddDatabaseWizard_cancel_type w h]
    simp [dnsPrompts, Event.isDnsPrompt, List.countP_cons]
  by_cases hv : w.selectAnswers (w.nSelect + 1) = ""
  · rw [AddDatabaseWizard_cancel_version w h hv]
    simp [dnsPrompts, Event.isDnsPrompt, List.countP_cons]
  rw [AddDatabaseWizard_attach w h hv]
  simp [dnsPrompts, Event.isDnsPrompt, List.countP_cons]

theorem dnsPrompts_AddBrokerWizard (w : World) :
    dnsPrompts (AddBrokerWizard w).2.log = dnsPrompts w.log := by
  by_cases h : w.selectAnswers w.nSelect = ""
  · simp [AddBrokerWizard, AskForSelect, World.emit, h, dnsPrompts, Event.isDnsPrompt,
      List.countP_cons]
  by_cases hv : w.selectAnswers (w.nSelect + 1) = ""
  · simp [AddBrokerWizard, AskForSelect, World.emit, h, hv, dnsPrompts, Event.isDnsPrompt,
      List.countP_cons]
  simp [AddBrokerWizard, AskForSelect, AskForInput, World.emit, h, hv, dnsPrompts,
    Event.isDnsPrompt, List.countP_cons]

theorem dnsPrompts_confirmed (w : World) (msg : String) :
    dnsPrompts (w.confirmed msg).log = dnsPrompts w.log := by
  simp [dnsPrompts, Event.isDnsPrompt]

theorem dnsPrompts_databaseLoop (n : Nat) :
    ∀ (count : Nat) (p : QoveryYML) (w : World), 20 - count ≤ n →
      dnsPrompts (databaseLoop count p w).2.log = dnsPrompts w.log := by
  induction n with
  | zero =>
    intro count p w hc
    rw [databaseLoop_done count p w (by omega)]
  | succ n ih =>
    intro count p w hc
    by_cases hlt : count < 20
    · rw [databaseLoop_eq count p w hlt]
      by_cases ha : w.confirmAnswers w.nConfirm = true
      · simp only [ha, if_true]
        rw [ih _ _ _ (by omega), dnsPrompts_AddDatabaseWizard, dnsPrompts_confirmed]
      · simp only [ha]
        exact dnsPrompts_confirmed _ _
    · rw [databaseLoop_done count p w (by omega)]

theorem dnsPrompts_brokerLoop (n : Nat) :
    ∀ (count : Nat) (p : QoveryYML) (w : World), 20 - count ≤ n →
      dnsPrompts (brokerLoop count p w).2.log = dnsPrompts w.log := by
  induction n with
  | zero =>
    intro count p w hc
    rw [brokerLoop_done count p w (by omega)]
  | succ n ih =>
    intro count p w hc
    by_cases hlt : count < 20
    · rw [brokerLoop_eq count p w hlt]
      by_cases ha : w.confirmAnswers w.nConfirm = true
      · simp only [ha, if_true]
        rw [ih _ _ _ (by omega), dnsPrompts_AddBrokerWizard, dnsPrompts_confirmed]
      · simp only [ha]
        exact dnsPrompts_confirmed _ _
    · rw [brokerLoop_done count p w (by omega)]

theorem dnsPrompts_projectNameLoop (api : Api) (fuel : Nat) :
    ∀ (w : World) (name : String) (w2 : World),
      projectNameLoop api fuel w = some (name, w2) → dnsPrompts w2.log = dnsPrompts w.log := by
  induction fuel with
  | zero => intro w name w2 h; simp [projectNameLoop] at h
  | succ f ih =>
    intro w name w2 h
    simp only [projectNameLoop, AskForInput, World.emit] at h
    by_cases hfree : (api.GetProjectByName (w.inputAnswers w.nInput)).isNone = true
    · rw [if_pos hfree] at h
      simp only [Option.some.injEq, Prod.mk.injEq] at h
      rw [← h.2]
      simp [dnsPrompts, Event.isDnsPrompt, List.countP_cons]
    · rw [if_neg hfree] at h
      rw [ih _ name w2 h]
      simp [dnsPrompts, Event.isDnsPrompt, List.countP_cons]

theorem dnsPrompts_repositoryNameLoop (api : Api) (projectId cwd : String) (fuel : Nat) :
    ∀ (w : World) (name : String) (w2 : World),
      repositoryNameLoop api projectId cwd fuel w = some (name, w2) →
      dnsPrompts w2.log = dnsPrompts w.log := by
  induction fuel with
  | zero => intro w name w2 h; simp [repositoryNameLoop] at h
  | succ f ih =>
    intro w name w2 h
    simp only [repositoryNameLoop, AskForInput, World.emit] at h
    by_cases hfree : (api.GetRepositoryByName projectId
        (if w.inputAnswers w.nInput = "" then cwd else w.inputAnswers w.nInput)).isNone = true
    · rw [if_pos hfree] at h
      simp only [Option.some.injEq, Prod.mk.injEq] at h
      rw [← h.2]
      simp [dnsPrompts, Event.isDnsPrompt, List.countP_cons, application_prompt_ne]
    · rw [if_neg hfree] at h
      rw [ih _ name w2 h]
      simp [dnsPrompts, Event.isDnsPrompt, List.countP_cons, application_prompt_ne]

theorem dnsPrompts_AskForProject (fuel : Nat) (api : Api) (w : World) (r : Project)
    (w2 : World) (hrun : AskForProject fuel api w = some (r, w2)) :
    dnsPrompts w2.log = dnsPrompts w.log := by
  by_cases h : w.selectAnswers w.nSelect = "Create new project"
  · rw [AskForProject_create fuel api w h] at hrun
    cases hloop : projectNameLoop api fuel
        (w.selected (projectSelectTrace api "Create new project")) with
    | none => simp [hloop] at hrun
    | some res =>
      obtain ⟨name, w3⟩ := res
      have h3 := dnsPrompts_projectNameLoop api fuel _ name w3 hloop
      rw [hloop] at hrun
      simp only [Option.some.injEq, Prod.mk.injEq] at hrun
      rw [← hrun.2, AskForCloudRegion_eq]
      simp only [World.emit, World.selected, dnsPrompts_append, h3]
      simp [dnsPrompts, Event.isDnsPrompt, List.countP_cons, projectSelectTrace, regionTrace]
  · rw [AskForProject_lookup fuel api w h] at hrun
    simp only [Option.some.injEq, Prod.mk.injEq] at hrun
    rw [← hrun.2]
    simp [World.selected, dnsPrompts, Event.isDnsPrompt, List.countP_cons, projectSelectTrace]

theorem dnsPrompts_AskForRepository (fuel : Nat) (api : Api) (project : Project) (w : World)
    (r : Repository) (w2 : World)
    (hrun : AskForRepository fuel api project w = some (r, w2)) :
    dnsPrompts w2.log = dnsPrompts w.log := by
  by_cases h : w.selectAnswers w.nSelect = "Create new application"
  · rw [AskForRepository_create fuel api project w h] at hrun
    cases hloop : repositoryNameLoop api project.Id (CurrentDirectoryName w) fuel
        (w.selected (repositorySelectTrace api project "Create new application")) with
    | none => simp [hloop] at hrun
    | some res =>
      obtain ⟨name, w3⟩ := res
      have h3 := dnsPrompts_repositoryNameLoop api project.Id _ fuel _ name w3 hloop
      rw [hloop] at hrun
      simp only [Option.some.injEq, Prod.mk.injEq] at hrun
      rw [← hrun.2]
      simp only [World.selected, dnsPrompts_append, h3]
      simp [dnsPrompts, Event.isDnsPrompt, List.countP_cons, repositorySelectTrace]
  · rw [AskForRepository_lookup fuel api project w h] at hrun
    simp only [Option.some.injEq, Prod.mk.injEq] at hrun
    rw [← hrun.2]
    simp [World.selected, dnsPrompts, Event.isDnsPrompt, List.countP_cons,
      repositorySelectTrace]

/-- The artifact and the custom-domain prompts of `assemble`, from the answer to the
public-accessibility confirmation. -/
theorem assemble_dns (api : Api) (project : Project) (repository : Repository) (w : World) :
    (assemble api project repository w).1.PubliclyAccessible = w.confirmAnswers w.nConfirm ∧
    (assemble api project repository w).1.DNS =
      (if w.confirmAnswers w.nConfirm = true then w.inputAnswers w.nInput else "") ∧
    dnsPrompts (assemble api project repository w).2.log =
      dnsPrompts w.log + (if w.confirmAnswers w.nConfirm = true then 1 else 0) := by
  rw [assemble_eq]
  obtain ⟨ds, hds, -⟩ := databaseLoop_appends 19 1
    (artifactBeforeLoops api project repository w) w.beforeLoops (by omega)
  obtain ⟨bs, hbs, -⟩ := brokerLoop_appends 19 1
    (databaseLoop 1 (artifactBeforeLoops api project repository w) w.beforeLoops).1
    (databaseLoop 1 (artifactBeforeLoops api project repository w) w.beforeLoops).2
    (by omega)
  refine ⟨by rw [hbs, hds]; rfl, by rw [hbs, hds]; rfl, ?_⟩
  rw [dnsPrompts_brokerLoop 19 _ _ _ (by omega), dnsPrompts_databaseLoop 19 _ _ _ (by omega)]
  by_cases h : w.confirmAnswers w.nConfirm = true
  · simp [World.beforeLoops, h, dnsPrompts, Event.isDnsPrompt, List.countP_cons]
  · simp [World.beforeLoops, h, dnsPrompts, Event.isDnsPrompt, List.countP_cons]

end Qovery

namespace Qovery

/-! ## C1: what the database sub-wizard can return -/

/-- C1: in a run of `AddDatabaseWizard` whose select prompts are each answered by the
empty string or by one of the options offered, a returned attachment has a Type among the
six database Types and a Version taken from the version list of the one label that
lower-cases to that Type; and whenever a select of the run is answered by the empty
string, no attachment is returned. -/
theorem AddDatabaseWizard_type_and_version (w : World)
    (hsel : ∀ e ∈ w.since (AddDatabaseWizard w).2, e.answerOffered = true) :
    (∀ d, (AddDatabaseWizard w).1 = some d →
      d.Typ ∈ databaseTypes ∧
      ∃ c ∈ databaseChoices, ToLower c = d.Typ ∧ d.Version ∈ databaseVersionChoices c ∧
        ∀ c2 ∈ databaseChoices, ToLower c2 = d.Typ → c2 = c) ∧
    ((∃ e ∈ w.since (AddDatabaseWizard w).2, e.emptySelect = true) →
      (AddDatabaseWizard w).1 = none) := by
  by_cases h : w.selectAnswers w.nSelect = ""
  · rw [AddDatabaseWizard_cancel_type w h]
    simp
  by_cases hv : w.selectAnswers (w.nSelect + 1) = ""
  · rw [AddDatabaseWizard_cancel_version w h hv]
    simp
  rw [AddDatabaseWizard_attach w h hv] at hsel ⊢
  simp only [World.since, List.drop_left, List.mem_cons, List.mem_singleton, List.not_mem_nil,
    or_false, forall_eq_or_imp, forall_eq, Event.answerOffered, decide_eq_true_eq, h, hv,
    false_or] at hsel
  obtain ⟨-, hc, hver, -⟩ := hsel
  constructor
  · intro d hd
    simp only [Option.some.injEq] at hd
    subst hd
    simp only
    generalize w.selectAnswers w.nSelect = c at hc hver
    generalize w.selectAnswers (w.nSelect + 1) = v at hver
    simp only [databaseChoices, List.mem_cons, List.mem_singleton, List.not_mem_nil,
      or_false] at hc
    rcases hc with rfl | rfl | rfl | rfl | rfl | rfl <;>
      exact ⟨by decide, _, by decide, rfl, hver, by decide⟩
  · simp [World.since, Event.emptySelect, h, hv]

/-- C1 at `demoWorld`: the selects `PostgreSQL` and `11.5` give an attachment. -/
theorem AddDatabaseWizard_type_and_version_witness :
    (AddDatabaseWizard demoWorld).1 = some ⟨"main", "postgresql", "11.5"⟩ ∧
    "postgresql" ∈ databaseTypes ∧
    ∃ c ∈ databaseChoices, ToLower c = "postgresql" ∧ "11.5" ∈ databaseVersionChoices c ∧
      ∀ c2 ∈ databaseChoices, ToLower c2 = "postgresql" → c2 = c :=
  ⟨by decide,
    (AddDatabaseWizard_type_and_version demoWorld (by decide)).1 ⟨"main", "postgresql", "11.5"⟩
      (by decide)⟩

/-! ## C2: the version table -/

/-- C2 (as stated, refuted): the Type `postgresql` is one of the six Types of the data
model, yet the table the sub-wizard consults has no version under that string; and the
string `PostgreSQL`, which is none of the six Types, has a non-empty entry. -/
theorem databaseVersionChoices_not_keyed_by_type :
    "postgresql" ∈ databaseTypes ∧ databaseVersionChoices "postgresql" = [] ∧
    "PostgreSQL" ∉ databaseTypes ∧ databaseVersionChoices "PostgreSQL" ≠ [] := by
  decide

/-- C2 (amended): the version table is keyed by the labels of the type select.  Each of
the six labels `PostgreSQL`, `MongoDB`, `MySQL`, `Redis`, `Memcached`, `Elasticsearch` has
a fixed non-empty list, the labels lower-cased are exactly the six Types in the same
order, and every other string has the empty list. -/
theorem databaseVersionChoices_keyed_by_label :
    databaseVersionChoices "PostgreSQL" = ["12", "11.5", "11.4", "11.2", "11.1", "10.10", "9.6"] ∧
    databaseVersionChoices "MongoDB" = ["3.6"] ∧
    databaseVersionChoices "MySQL" = ["8.0", "5.7", "5.6", "5.5"] ∧
    databaseVersionChoices "Redis" = ["5.0", "4.0", "3.2", "2.8", "2.6"] ∧
    databaseVersionChoices "Memcached" = ["1.5", "1.4"] ∧
    databaseVersionChoices "Elasticsearch" = ["7.1", "6.8", "5.6", "2.3", "1.5"] ∧
    (∀ c ∈ databaseChoices, databaseVersionChoices c ≠ []) ∧
    databaseChoices.map ToLower = databaseTypes ∧
    (∀ s : String, s ∉ databaseChoices → databaseVersionChoices s = []) := by
  refine ⟨by decide, by decide, by decide, by decide, by decide, by decide, by decide,
    by decide, ?_⟩
  intro s hs
  simp only [databaseChoices, List.mem_cons, List.mem_singleton, List.not_mem_nil, or_false,
    not_or] at hs
  obtain ⟨h1, h2, h3, h4, h5, h6⟩ := hs
  simp [databaseVersionChoices, h1, h2, h3, h4, h5, h6]

/-- C2 (amended) at `mariadb`, a string that is none of the six labels. -/
theorem databaseVersionChoices_keyed_by_label_witness :
    "mariadb" ∉ databaseChoices ∧ databaseVersionChoices "mariadb" = [] :=
  ⟨by decide, databaseVersionChoices_keyed_by_label.2.2.2.2.2.2.2.2 "mariadb" (by decide)⟩

/-! ## C3: a colliding project name is never submitted -/

/-- C3: let the answer of the opening select of `AskForProject` be `Create new project`.
If the first `k` names entered are names for which `GetProjectByName` finds a project and
the next one is not, then (given a budget of more than `k` prompts) the run rejects each
of the `k` names with the collision message, asks the name prompt again after each, and
submits exactly one project for creation, under the accepted name.  As long as every
entered name collides, the run does not return, so nothing is submitted.  And in every
run that returns, whatever the select answer, each project submitted to `CreateProject`
has a name for which `GetProjectByName` found nothing. -/
theorem AskForProject_create_no_collision (fuel : Nat) (api : Api) (w : World) :
    (w.selectAnswers w.nSelect = "Create new project" →
      (∀ k, k < fuel →
        (∀ i, i < k → (api.GetProjectByName (w.inputAnswers (w.nInput + i))).isSome = true) →
        (api.GetProjectByName (w.inputAnswers (w.nInput + k))).isNone = true →
        ∃ w2,
          AskForProject fuel api w = some (api.CreateProject (submittedProject api w k), w2) ∧
          w.since w2 = createProjectTrace api w k ∧
          (submittedProject api w k).Name = w.inputAnswers (w.nInput + k)) ∧
      ((∀ i, i < fuel →
          (api.GetProjectByName (w.inputAnswers (w.nInput + i))).isSome = true) →
        AskForProject fuel api w = none)) ∧
    (∀ r w2, AskForProject fuel api w = some (r, w2) →
      ∀ p, Event.createProject p ∈ w.since w2 → api.GetProjectByName p.Name = none) := by
  refine ⟨fun h => ⟨?_, ?_⟩, ?_⟩
  · intro k hk htaken hfree
    refine ⟨_, AskForProject_create_run fuel api w k h hk htaken hfree, ?_, rfl⟩
    simp [World.since]
  · intro hall
    rw [AskForProject_create fuel api w h]
    cases hloop : projectNameLoop api fuel
        (w.selected (projectSelectTrace api "Create new project")) with
    | none => rfl
    | some res =>
      obtain ⟨name, w3⟩ := res
      obtain ⟨k, hk, -, hfree⟩ := projectNameLoop_inv api fuel _ name w3 hloop
      have := hall k hk
      cases hg : api.GetProjectByName (w.inputAnswers (w.nInput + k)) <;>
        simp [World.selected, hg] at hfree this
  · intro r w2 hrun p hp
    by_cases h : w.selectAnswers w.nSelect = "Create new project"
    · rw [AskForProject_create fuel api w h] at hrun
      cases hloop : projectNameLoop api fuel
          (w.selected (projectSelectTrace api "Create new project")) with
      | none => simp [hloop] at hrun
      | some res =>
        obtain ⟨name, w3⟩ := res
        obtain ⟨k, hk, htaken, hfree⟩ := projectNameLoop_inv api fuel _ name w3 hloop
        have hrun2 := AskForProject_create_run fuel api w k h hk
          (by simpa [World.selected] using htaken) (by simpa [World.selected] using hfree)
        rw [AskForProject_create fuel api w h, hloop] at hrun2
        rw [hloop] at hrun
        simp only [Option.some.injEq, Prod.mk.injEq] at hrun hrun2
        have hw2 : w2.log = w.log ++ createProjectTrace api w k := by
          rw [← hrun.2, hrun2.2]
        rw [World.since, hw2, List.drop_left] at hp
        have hfree2 : api.GetProjectByName (w.inputAnswers (w.nInput + k)) = none := by
          cases hg : api.GetProjectByName (w.inputAnswers (w.nInput + k)) with
          | none => rfl
          | some v => simp [World.selected, hg] at hfree
        simp only [createProjectTrace, projectSelectTrace, rejectedProjectName,
          acceptedProjectName, regionTrace, List.mem_append, List.mem_cons,
          List.mem_singleton, List.mem_flatMap, List.not_mem_nil, or_false, reduceCtorEq,
          false_or, and_false, exists_false, Event.createProject.injEq] at hp
        rw [hp]
        exact hfree2
    · rw [AskForProject_lookup fuel api w h] at hrun
      simp only [Option.some.injEq, Prod.mk.injEq] at hrun
      rw [← hrun.2, since_selected] at hp
      simp [projectSelectTrace] at hp

/-- C3 at `demoApi` and `createWorld`: `shop` is entered twice and rejected twice, then
`newco` is accepted and submitted. -/
theorem AskForProject_create_no_collision_witness :
    ∃ w2, AskForProject 3 demoApi createWorld =
        some (demoApi.CreateProject (submittedProject demoApi createWorld 2), w2) ∧
      createWorld.since w2 = createProjectTrace demoApi createWorld 2 ∧
      (submittedProject demoApi createWorld 2).Name =
        createWorld.inputAnswers (createWorld.nInput + 2) :=
  ((AskForProject_create_no_collision 3 demoApi createWorld).1 (by decide)).1 2 (by decide)
    (by decide) (by decide)

/-! ## C4: the database loop stops with nineteen attachments -/

/-- C4: in the database loop as `initCmd.Run` enters it (`count := 1`), if the next
nineteen confirmations are yes and none of the selects of the sub-wizard runs is answered
by the empty string (so that each run returns an attachment), the loop stops at the bound
with exactly nineteen attachments appended in the order of the rounds, having asked
nineteen confirmations; for every sequence of answers it appends at most nineteen
attachments; the broker loop leaves `Databases` as it finds it; and the artifact that
`assemble` hands over carries at most nineteen databases. -/
theorem databaseLoop_nineteen (p : QoveryYML) (w : World) :
    ((∀ i, i < 19 → w.confirmAnswers (w.nConfirm + i) = true) →
      (∀ j, j < 38 → w.selectAnswers (w.nSelect + j) ≠ "") →
      (databaseLoop 1 p w).1.Databases =
          p.Databases ++ (List.range 19).map (pendingDatabase w) ∧
        (databaseLoop 1 p w).1.Databases.length = p.Databases.length + 19 ∧
        confirmations (databaseLoop 1 p w).2.log = confirmations w.log + 19 ∧
        (databaseLoop 1 p w).2.nConfirm = w.nConfirm + 19) ∧
    (databaseLoop 1 p w).1.Databases.length ≤ p.Databases.length + 19 ∧
    (∀ (count : Nat) (w2 : World), (brokerLoop count p w2).1.Databases = p.Databases) ∧
    (∀ (api : Api) (project : Project) (repository : Repository),
      (assemble api project repository w).1.Databases.length ≤ 19) := by
  refine ⟨?_, ?_, ?_, ?_⟩
  · intro hyes hsel
    have h := databaseLoop_attach_all 19 1 p w rfl hyes (by simpa using hsel)
    obtain ⟨g1, g2, -⟩ := databaseLoop_bound 19 1 p w rfl hyes
    refine ⟨by rw [h], by rw [h]; simp, g2, g1⟩
  · obtain ⟨ds, hds, hlen⟩ := databaseLoop_appends 19 1 p w (by omega)
    rw [hds]
    simp only [List.length_append]
    omega
  · intro count w2
    obtain ⟨bs, hbs, -⟩ := brokerLoop_appends (20 - count) count p w2 (le_refl _)
    rw [hbs]
  · intro api project repository
    rw [assemble_eq]
    obtain ⟨ds, hds, hlen⟩ := databaseLoop_appends 19 1
      (artifactBeforeLoops api project repository w) w.beforeLoops (by omega)
    obtain ⟨bs, hbs, -⟩ := brokerLoop_appends 19 1
      (databaseLoop 1 (artifactBeforeLoops api project repository w) w.beforeLoops).1
      (databaseLoop 1 (artifactBeforeLoops api project repository w) w.beforeLoops).2
      (by omega)
    rw [hbs, hds]
    simp only [artifactBeforeLoops, List.nil_append]
    omega

/-- C4 at `yesWorld`, where every confirmation is yes and every select is answered. -/
theorem databaseLoop_nineteen_witness :
    (databaseLoop 1 {} yesWorld).1.Databases =
        [] ++ (List.range 19).map (pendingDatabase yesWorld) ∧
      (databaseLoop 1 {} yesWorld).1.Databases.length = 0 + 19 ∧
      confirmations (databaseLoop 1 {} yesWorld).2.log = confirmations yesWorld.log + 19 ∧
      (databaseLoop 1 {} yesWorld).2.nConfirm = yesWorld.nConfirm + 19 :=
  (databaseLoop_nineteen {} yesWorld).1 (fun _ _ => rfl) (by decide)

/-! ## C5: the ceiling of the attachment loops -/

/-- C5 (as stated, refuted): at `yesWorld` every confirmation is answered yes, and each
loop stops after nineteen confirmations and nineteen sub-wizard runs, not twenty. -/
theorem attachment_loops_not_twenty :
    (∀ n, yesWorld.confirmAnswers n = true) ∧
    confirmations (databaseLoop 1 {} yesWorld).2.log = 19 ∧
    invocations "AddDatabaseWizard" (databaseLoop 1 {} yesWorld).2.log = 19 ∧
    confirmations (brokerLoop 1 {} yesWorld).2.log = 19 ∧
    invocations "AddBrokerWizard" (brokerLoop 1 {} yesWorld).2.log = 19 ∧
    ¬ (confirmations (databaseLoop 1 {} yesWorld).2.log = 20 ∧
        invocations "AddDatabaseWizard" (databaseLoop 1 {} yesWorld).2.log = 20) := by
  refine ⟨fun _ => rfl, by decide, by decide, by decide, by decide, by decide⟩

/-- C5 (amended): each attachment loop has a ceiling of nineteen attempts including the
first.  When the next nineteen confirmations are yes, the loop asks nineteen
confirmations and runs its sub-wizard nineteen times, then stops at the bound; when the
user declines after `k < 19` acceptances, it asks `k + 1` confirmations, runs its
sub-wizard `k` times and ends on the declined confirmation. -/
theorem attachment_loops_ceiling (p : QoveryYML) (w : World) :
    ((∀ i, i < 19 → w.confirmAnswers (w.nConfirm + i) = true) →
      (confirmations (databaseLoop 1 p w).2.log = confirmations w.log + 19 ∧
        invocations "AddDatabaseWizard" (databaseLoop 1 p w).2.log =
          invocations "AddDatabaseWizard" w.log + 19 ∧
        (databaseLoop 1 p w).2.nConfirm = w.nConfirm + 19) ∧
      (confirmations (brokerLoop 1 p w).2.log = confirmations w.log + 19 ∧
        invocations "AddBrokerWizard" (brokerLoop 1 p w).2.log =
          invocations "AddBrokerWizard" w.log + 19 ∧
        (brokerLoop 1 p w).2.nConfirm = w.nConfirm + 19)) ∧
    (∀ k, k < 19 → (∀ i, i < k → w.confirmAnswers (w.nConfirm + i) = true) →
      w.confirmAnswers (w.nConfirm + k) = false →
      (confirmations (databaseLoop 1 p w).2.log = confirmations w.log + (k + 1) ∧
        invocations "AddDatabaseWizard" (databaseLoop 1 p w).2.log =
          invocations "AddDatabaseWizard" w.log + k ∧
        (databaseLoop 1 p w).2.log.getLast? =
          some (Event.confirm (databaseQuestion (1 + k)) "n" false)) ∧
      (confirmations (brokerLoop 1 p w).2.log = confirmations w.log + (k + 1) ∧
        invocations "AddBrokerWizard" (brokerLoop 1 p w).2.log =
          invocations "AddBrokerWizard" w.log + k ∧
        (brokerLoop 1 p w).2.log.getLast? =
          some (Event.confirm (brokerQuestion (1 + k)) "n" false))) := by
  constructor
  · intro hyes
    obtain ⟨g1, g2, g3⟩ := databaseLoop_bound 19 1 p w rfl hyes
    obtain ⟨b1, b2, b3⟩ := brokerLoop_bound 19 1 p w rfl hyes
    exact ⟨⟨g2, g3, g1⟩, ⟨b2, b3, b1⟩⟩
  · intro k hk hyes hno
    obtain ⟨-, g2, g3, g4⟩ := databaseLoop_decline k 1 p w (by omega) hyes hno
    obtain ⟨-, b2, b3, b4⟩ := brokerLoop_decline k 1 p w (by omega) hyes hno
    exact ⟨⟨g2, g3, g4⟩, ⟨b2, b3, b4⟩⟩

/-- C5 (amended) at `yesWorld` for the bound and at `twoThenNoWorld` for a decline after
two acceptances. -/
theorem attachment_loops_ceiling_witness :
    ((confirmations (databaseLoop 1 {} yesWorld).2.log = confirmations yesWorld.log + 19 ∧
        invocations "AddDatabaseWizard" (databaseLoop 1 {} yesWorld).2.log =
          invocations "AddDatabaseWizard" yesWorld.log + 19 ∧
        (databaseLoop 1 {} yesWorld).2.nConfirm = yesWorld.nConfirm + 19) ∧
      (confirmations (brokerLoop 1 {} yesWorld).2.log = confirmations yesWorld.log + 19 ∧
        invocations "AddBrokerWizard" (brokerLoop 1 {} yesWorld).2.log =
          invocations "AddBrokerWizard" yesWorld.log + 19 ∧
        (brokerLoop 1 {} yesWorld).2.nConfirm = yesWorld.nConfirm + 19)) ∧
    ((confirmations (databaseLoop 1 {} twoThenNoWorld).2.log =
          confirmations twoThenNoWorld.log + (2 + 1) ∧
        invocations "AddDatabaseWizard" (databaseLoop 1 {} twoThenNoWorld).2.log =
          invocations "AddDatabaseWizard" twoThenNoWorld.log + 2 ∧
        (databaseLoop 1 {} twoThenNoWorld).2.log.getLast? =
          some (Event.confirm (databaseQuestion (1 + 2)) "n" false)) ∧
      (confirmations (brokerLoop 1 {} twoThenNoWorld).2.log =
          confirmations twoThenNoWorld.log + (2 + 1) ∧
        invocations "AddBrokerWizard" (brokerLoop 1 {} twoThenNoWorld).2.log =
          invocations "AddBrokerWizard" twoThenNoWorld.log + 2 ∧
        (brokerLoop 1 {} twoThenNoWorld).2.log.getLast? =
          some (Event.confirm (brokerQuestion (1 + 2)) "n" false))) :=
  ⟨(attachment_loops_ceiling {} yesWorld).1 (fun _ _ => rfl),
    (attachment_loops_ceiling {} twoThenNoWorld).2 2 (by decide) (by decide) (by decide)⟩

/-! ## C6: a declined confirmation ends the database loop -/

/-- C6: in the database loop as `initCmd.Run` enters it, a first answer `no` ends the loop
on the spot: the artifact is unchanged (so `Databases` is empty when it was empty), the
only thing that happened is the first question, and `AddDatabaseWizard` was not entered.
In general, after `k < 19` acceptances followed by a `no`, `AddDatabaseWizard` was entered
exactly `k` times, exactly `k + 1` confirmations were asked, and the declined confirmation
is the last event of the loop. -/
theorem databaseLoop_no_ends (p : QoveryYML) (w : World) :
    (w.confirmAnswers w.nConfirm = false →
      databaseLoop 1 p w =
          (p, w.confirmed "Do you need a database? (PostgreSQL, MySQL, MongoDB, ...)") ∧
        (p.Databases = [] → (databaseLoop 1 p w).1.Databases = []) ∧
        invocations "AddDatabaseWizard" (databaseLoop 1 p w).2.log =
          invocations "AddDatabaseWizard" w.log) ∧
    (∀ k, k < 19 → (∀ i, i < k → w.confirmAnswers (w.nConfirm + i) = true) →
      w.confirmAnswers (w.nConfirm + k) = false →
      invocations "AddDatabaseWizard" (databaseLoop 1 p w).2.log =
          invocations "AddDatabaseWizard" w.log + k ∧
        confirmations (databaseLoop 1 p w).2.log = confirmations w.log + (k + 1) ∧
        (databaseLoop 1 p w).2.nConfirm = w.nConfirm + (k + 1) ∧
        (databaseLoop 1 p w).2.log.getLast? =
          some (Event.confirm (databaseQuestion (1 + k)) "n" false)) := by
  constructor
  · intro hno
    have h := databaseLoop_no 1 p w (by omega) hno
    have hq : databaseQuestion 1 =
        "Do you need a database? (PostgreSQL, MySQL, MongoDB, ...)" := by decide
    rw [hq] at h
    refine ⟨h, ?_, ?_⟩
    · intro hp
      rw [h]
      exact hp
    · rw [h, invocations_confirmed]
  · intro k hk hyes hno
    obtain ⟨g1, g2, g3, g4⟩ := databaseLoop_decline k 1 p w (by omega) hyes hno
    exact ⟨g3, g2, g1, g4⟩

/-- C6 at `twoThenNoWorld`: two acceptances, then a `no`. -/
theorem databaseLoop_no_ends_witness :
    invocations "AddDatabaseWizard" (databaseLoop 1 {} twoThenNoWorld).2.log =
        invocations "AddDatabaseWizard" twoThenNoWorld.log + 2 ∧
      confirmations (databaseLoop 1 {} twoThenNoWorld).2.log =
        confirmations twoThenNoWorld.log + (2 + 1) ∧
      (databaseLoop 1 {} twoThenNoWorld).2.nConfirm = twoThenNoWorld.nConfirm + (2 + 1) ∧
      (databaseLoop 1 {} twoThenNoWorld).2.log.getLast? =
        some (Event.confirm (databaseQuestion (1 + 2)) "n" false) :=
  (databaseLoop_no_ends {} twoThenNoWorld).2 2 (by decide) (by decide) (by decide)

/-! ## C7: the custom domain is set only for a public application -/

/-- C7: in every run of the command that reaches the artifact, `DNS` is non-empty only
when `PubliclyAccessible` is true; when `PubliclyAccessible` is false, `DNS` is empty and
the custom-domain prompt was not asked during the run, and when it is true the prompt was
asked exactly once.  `PubliclyAccessible` is the answer to the public-accessibility
confirmation: in the steps after the resolvers, a `no` leaves `DNS` empty and asks no
custom-domain prompt. -/
theorem Run_dns_only_when_public (fuel : Nat) (api : Api) (w : World) :
    (∀ p w2, Run fuel api w = some (Outcome.written p, w2) →
      (p.DNS ≠ "" → p.PubliclyAccessible = true) ∧
      (p.PubliclyAccessible = false → p.DNS = "" ∧ dnsPrompts w2.log = dnsPrompts w.log) ∧
      (p.PubliclyAccessible = true → dnsPrompts w2.log = dnsPrompts w.log + 1)) ∧
    (∀ (project : Project) (repository : Repository),
      (assemble api project repository w).1.PubliclyAccessible = w.confirmAnswers w.nConfirm ∧
      (w.confirmAnswers w.nConfirm = false →
        (assemble api project repository w).1.DNS = "" ∧
        dnsPrompts (assemble api project repository w).2.log = dnsPrompts w.log)) := by
  constructor
  · intro p w2 hrun
    simp only [Run] at hrun
    split at hrun
    · simp at hrun
    split at hrun
    · simp at hrun
    cases hproj : AskForProject fuel api w with
    | none => simp [hproj] at hrun
    | some res =>
      obtain ⟨project, w3⟩ := res
      rw [hproj] at hrun
      simp only at hrun
      cases hrepo : AskForRepository fuel api project w3 with
      | none => simp [hrepo] at hrun
      | some res2 =>
        obtain ⟨repository, w4⟩ := res2
        rw [hrepo] at hrun
        simp only [Option.some.injEq, Prod.mk.injEq, Outcome.written.injEq] at hrun
        obtain ⟨a1, a2, a3⟩ := assemble_dns api project repository w4
        have d1 := dnsPrompts_AskForProject fuel api w project w3 hproj
        have d2 := dnsPrompts_AskForRepository fuel api project w3 repository w4 hrepo
        rw [hrun.1] at a1 a2
        rw [hrun.2, d2, d1] at a3
        refine ⟨?_, ?_, ?_⟩
        · intro hdns
          rw [a1]
          by_contra hc
          rw [if_neg hc] at a2
          exact hdns a2
        · intro hpub
          rw [a1] at hpub
          rw [a2, a3]
          simp [hpub]
        · intro hpub
          rw [a1] at hpub
          rw [a3]
          simp [hpub]
  · intro project repository
    obtain ⟨a1, a2, a3⟩ := assemble_dns api project repository w
    refine ⟨a1, ?_⟩
    intro hno
    rw [a2, a3]
    simp [hno]

/-- C7 at `demoApi` and `privateWorld`, where public access is declined: the run reaches
the artifact, `DNS` is empty and no custom-domain prompt was asked. -/
theorem Run_dns_only_when_public_witness :
    Run 1 demoApi privateWorld = some (Outcome.written privateArtifact, privateWorldEnd) ∧
    (privateArtifact.DNS ≠ "" → privateArtifact.PubliclyAccessible = true) ∧
    (privateArtifact.PubliclyAccessible = false →
      privateArtifact.DNS = "" ∧ dnsPrompts privateWorldEnd.log = dnsPrompts privateWorld.log) ∧
    (privateArtifact.PubliclyAccessible = true →
      dnsPrompts privateWorldEnd.log = dnsPrompts privateWorld.log + 1) :=
  ⟨by rfl,
    (Run_dns_only_when_public 1 demoApi privateWorld).1 privateArtifact privateWorldEnd
      (by rfl)⟩

/-! ## C8: the region resolver -/

/-- C8: `AskForCloudRegion` offers the labels `<ProviderName>/<RegionFullName>` of all
provider-region pairs, in provider order and then region order.  When the answer is one of
the offered labels, the returned region belongs to a provider of the catalog whose name,
a slash and the region's full name make up the answer; and when the offered labels are
pairwise distinct, answering with the label of the `i`-th pair returns the region of that
very pair. -/
theorem AskForCloudRegion_resolves (api : Api) (w : World) :
    (AskForCloudRegion api w).2.log =
        w.log ++ [Event.call "AskForCloudRegion", Event.api "ListCloudProviders" "",
          Event.select ((flattenedPairs api.ListCloudProviders).map pairLabel)
            "Choose the region where you want to host your project and applications" ""
            (w.selectAnswers w.nSelect)] ∧
    (w.selectAnswers w.nSelect ∈ (flattenedPairs api.ListCloudProviders).map pairLabel →
      ∃ c ∈ api.ListCloudProviders, (AskForCloudRegion api w).1 ∈ c.Regions ∧
        c.Name ++ "/" ++ (AskForCloudRegion api w).1.FullName = w.selectAnswers w.nSelect) ∧
    (((flattenedPairs api.ListCloudProviders).map pairLabel).Nodup →
      ∀ (i : Nat) (hi : i < (flattenedPairs api.ListCloudProviders).length),
        w.selectAnswers w.nSelect = pairLabel ((flattenedPairs api.ListCloudProviders)[i]) →
        (AskForCloudRegion api w).1 = ((flattenedPairs api.ListCloudProviders)[i]).2) := by
  have hrun : AskForCloudRegion api w =
      (match findRegion (w.selectAnswers w.nSelect) api.ListCloudProviders with
        | some r => r
        | none => {},
       { w with
          nSelect := w.nSelect + 1
          log := w.log ++ [Event.call "AskForCloudRegion", Event.api "ListCloudProviders" "",
            Event.select ((flattenedPairs api.ListCloudProviders).map pairLabel)
              "Choose the region where you want to host your project and applications" ""
              (w.selectAnswers w.nSelect)] }) := by
    simp only [AskForCloudRegion, AskForSelect, World.emit, regionNames_eq]
    cases findRegion (w.selectAnswers w.nSelect) api.ListCloudProviders <;> simp
  rw [hrun]
  refine ⟨rfl, ?_, ?_⟩
  · intro hmem
    obtain ⟨cr, hcr, hlabel⟩ := List.mem_map.1 hmem
    rw [findRegion_eq]
    cases hf : (flattenedPairs api.ListCloudProviders).find?
        (fun cr => decide (pairLabel cr = w.selectAnswers w.nSelect)) with
    | none =>
      have := List.find?_eq_none.1 hf cr hcr
      simp [hlabel] at this
    | some found =>
      have hin := mem_flattenedPairs _ _ (List.mem_of_find?_eq_some hf)
      have hp := List.find?_some hf
      simp only [decide_eq_true_eq] at hp
      exact ⟨found.1, hin.1, hin.2, hp⟩
  · intro hnd i hi hans
    rw [findRegion_eq, hans,
      find_label_of_nodup pairLabel _ hnd _ (List.getElem_mem hi)]
    rfl

/-- C8 at `demoApi` and `regionWorld`: the third label is answered, the third pair's
region comes back. -/
theorem AskForCloudRegion_resolves_witness :
    (AskForCloudRegion demoApi regionWorld).1 = ⟨"europe-west1"⟩ ∧
    ∃ c ∈ demoApi.ListCloudProviders, (AskForCloudRegion demoApi regionWorld).1 ∈ c.Regions ∧
      c.Name ++ "/" ++ (AskForCloudRegion demoApi regionWorld).1.FullName =
        regionWorld.selectAnswers regionWorld.nSelect :=
  ⟨(AskForCloudRegion_resolves demoApi regionWorld).2.2 (by decide) 2 (by decide) (by decide),
    (AskForCloudRegion_resolves demoApi regionWorld).2.1 (by decide)⟩

/-! ## C9: picking an existing project or application -/

/-- C9: when the answer of the opening select is not the create-new label, `AskForProject`
returns the first project of the remote list, in remote order, whose `Name` equals the
answer, and the zero value when no listed project has that name; the run consists of the
listing and the select only, so no creation and no region resolution takes place.  The
same holds for `AskForRepository` and the repositories of the project. -/
theorem resolvers_pick_existing (fuel : Nat) (api : Api) (project : Project) (w : World) :
    (w.selectAnswers w.nSelect ≠ "Create new project" →
      ∃ r w2, AskForProject fuel api w = some (r, w2) ∧
        FirstNamedOrZero (fun v : Project => v.Name) {} (w.selectAnswers w.nSelect)
          api.ListProjects r ∧
        w.since w2 = projectSelectTrace api (w.selectAnswers w.nSelect) ∧
        ∀ e ∈ w.since w2, e.createsOrResolvesRegion = false) ∧
    (w.selectAnswers w.nSelect ≠ "Create new application" →
      ∃ r w2, AskForRepository fuel api project w = some (r, w2) ∧
        FirstNamedOrZero (fun v : Repository => v.Name) {} (w.selectAnswers w.nSelect)
          (api.ListRepositories project.Id) r ∧
        w.since w2 = repositorySelectTrace api project (w.selectAnswers w.nSelect) ∧
        ∀ e ∈ w.since w2, e.createsOrResolvesRegion = false) := by
  constructor
  · intro h
    refine ⟨_, _, AskForProject_lookup fuel api w h, findProject_first _ _,
      since_selected _ _, ?_⟩
    rw [since_selected]
    simp [projectSelectTrace, Event.createsOrResolvesRegion]
  · intro h
    refine ⟨_, _, AskForRepository_lookup fuel api project w h, findRepository_first _ _,
      since_selected _ _, ?_⟩
    rw [since_selected]
    simp [repositorySelectTrace, Event.createsOrResolvesRegion]

/-- C9 at `demoApi` and `pickWorld`: the answer `shop` is not a create-new label. -/
theorem resolvers_pick_existing_witness :
    (∃ r w2, AskForProject 0 demoApi pickWorld = some (r, w2) ∧
        FirstNamedOrZero (fun v : Project => v.Name) {}
          (pickWorld.selectAnswers pickWorld.nSelect) demoApi.ListProjects r ∧
        pickWorld.since w2 =
          projectSelectTrace demoApi (pickWorld.selectAnswers pickWorld.nSelect) ∧
        ∀ e ∈ pickWorld.since w2, e.createsOrResolvesRegion = false) ∧
    (∃ r w2, AskForRepository 0 demoApi {} pickWorld = some (r, w2) ∧
        FirstNamedOrZero (fun v : Repository => v.Name) {}
          (pickWorld.selectAnswers pickWorld.nSelect) (demoApi.ListRepositories "") r ∧
        pickWorld.since w2 =
          repositorySelectTrace demoApi {} (pickWorld.selectAnswers pickWorld.nSelect) ∧
        ∀ e ∈ pickWorld.since w2, e.createsOrResolvesRegion = false) :=
  ⟨(resolvers_pick_existing 0 demoApi {} pickWorld).1 (by decide),
    (resolvers_pick_existing 0 demoApi {} pickWorld).2 (by decide)⟩

/-! ## C10: the create-new label shadows an entity of the same name -/

/-- C10 (as stated, refuted): at `upsertApi` the remote list holds a project named
`Create new project`; the user selects that string, enters it again as the name of the new
project, the lookup by name finds nothing and `CreateProject` responds with the project of
that name: the resolver returns the listed project.  The same happens in
`AskForRepository` with the application named `Create new application`. -/
theorem create_label_result_can_be_listed :
    (⟨"5", "Create new project", ⟨"eu-west-3"⟩⟩ : Project) ∈ upsertApi.ListProjects ∧
    upsertProjectWorld.selectAnswers upsertProjectWorld.nSelect = "Create new project" ∧
    (AskForProject 1 upsertApi upsertProjectWorld).map Prod.fst =
      some ⟨"5", "Create new project", ⟨"eu-west-3"⟩⟩ ∧
    (⟨"6", "Create new application", "git@x/old.git"⟩ : Repository) ∈
      upsertApi.ListRepositories "" ∧
    upsertRepositoryWorld.selectAnswers upsertRepositoryWorld.nSelect =
      "Create new application" ∧
    (AskForRepository 1 upsertApi {} upsertRepositoryWorld).map Prod.fst =
      some ⟨"6", "Create new application", "git@x/old.git"⟩ := by
  decide

/-- C10 (amended): whatever the remote list contains, a run of `AskForProject` whose
select is answered by `Create new project` takes the creation path.  If the first `k`
names entered are found by `GetProjectByName` and the next one is not, the run returns
(given a budget of more than `k` prompts) the response of `CreateProject` to the project
submitted under that name, and its trace is the select, the name rounds, the region
resolution and the submission; as long as every entered name is found, the run asks on
and returns nothing.  A run answered by anything else returns, and its result is not
named `Create new project`, so it is none of the listed projects of that name.  Hence a
listed project named `Create new project` is never found by the list search; it can be
the result only as the response of `CreateProject`, and not even so when `CreateProject`
keeps the submitted name and `GetProjectByName` finds every listed project.  The same
holds for `AskForRepository`, the label `Create new application`, `CreateRepository` and
`GetRepositoryByName`; there a rejected name is followed by the name prompt, never by a
confirmation. -/
theorem create_label_shadows_search (fuel : Nat) (api : Api) (project : Project)
    (w : World) :
    ((w.selectAnswers w.nSelect = "Create new project" →
        (∀ k, k < fuel →
          (∀ i, i < k →
            (api.GetProjectByName (w.inputAnswers (w.nInput + i))).isSome = true) →
          (api.GetProjectByName (w.inputAnswers (w.nInput + k))).isNone = true →
          ∃ w2,
            AskForProject fuel api w =
              some (api.CreateProject (submittedProject api w k), w2) ∧
            w.since w2 = createProjectTrace api w k ∧
            ((∀ p, (api.CreateProject p).Name = p.Name) →
              (∀ e ∈ api.ListProjects, (api.GetProjectByName e.Name).isSome = true) →
              ∀ e ∈ api.ListProjects, e.Name = "Create new project" →
                api.CreateProject (submittedProject api w k) ≠ e)) ∧
        ((∀ i, i < fuel →
            (api.GetProjectByName (w.inputAnswers (w.nInput + i))).isSome = true) →
          AskForProject fuel api w = none)) ∧
      (w.selectAnswers w.nSelect ≠ "Create new project" →
        ∃ r w2, AskForProject fuel api w = some (r, w2) ∧
          r.Name ≠ "Create new project" ∧
          ∀ e ∈ api.ListProjects, e.Name = "Create new project" → r ≠ e)) ∧
    ((w.selectAnswers w.nSelect = "Create new application" →
        (∀ k, k < fuel →
          (∀ i, i < k → (api.GetRepositoryByName project.Id
            (enteredRepositoryName (CurrentDirectoryName w) w i)).isSome = true) →
          (api.GetRepositoryByName project.Id
            (enteredRepositoryName (CurrentDirectoryName w) w k)).isNone = true →
          ∃ w2,
            AskForRepository fuel api project w =
              some (api.CreateRepository project.Id (submittedRepository w k), w2) ∧
            w.since w2 = createRepositoryTrace api project w k ∧
            (∀ e ∈ w.since w2, e.isConfirm = false) ∧
            ((∀ p, (api.CreateRepository project.Id p).Name = p.Name) →
              (∀ e ∈ api.ListRepositories project.Id,
                (api.GetRepositoryByName project.Id e.Name).isSome = true) →
              ∀ e ∈ api.ListRepositories project.Id, e.Name = "Create new application" →
                api.CreateRepository project.Id (submittedRepository w k) ≠ e)) ∧
        ((∀ i, i < fuel → (api.GetRepositoryByName project.Id
            (enteredRepositoryName (CurrentDirectoryName w) w i)).isSome = true) →
          AskForRepository fuel api project w = none)) ∧
      (w.selectAnswers w.nSelect ≠ "Create new application" →
        ∃ r w2, AskForRepository fuel api project w = some (r, w2) ∧
          r.Name ≠ "Create new application" ∧
          ∀ e ∈ api.ListRepositories project.Id, e.Name = "Create new application" →
            r ≠ e)) := by
  refine ⟨⟨fun h => ⟨?_, AskForProject_all_taken fuel api w h⟩, ?_⟩,
    ⟨fun h => ⟨?_, AskForRepository_all_taken fuel api project w h⟩, ?_⟩⟩
  · intro k hk htaken hfree
    refine ⟨_, AskForProject_create_run fuel api w k h hk htaken hfree, ?_, ?_⟩
    · simp [World.since]
    · intro hkeep hfound e he hename hre
      have h1 : w.inputAnswers (w.nInput + k) = "Create new project" := by
        have := hkeep (submittedProject api w k)
        rw [hre, hename] at this
        exact this.symm
      have h2 := hfound e he
      rw [hename, ← h1] at h2
      cases hg : api.GetProjectByName (w.inputAnswers (w.nInput + k)) <;>
        simp [hg] at h2 hfree
  · intro h
    refine ⟨_, _, AskForProject_lookup fuel api w h, findProject_name _ _ h, ?_⟩
    intro e _ hename hre
    exact findProject_name _ api.ListProjects h (by rw [hre, hename])
  · intro k hk htaken hfree
    refine ⟨_, AskForRepository_create_run fuel api project w k h hk htaken hfree, ?_, ?_, ?_⟩
    · simp [World.since]
    · simp only [World.since, List.drop_left]
      intro e he
      simp only [createRepositoryTrace, repositorySelectTrace, rejectedRepositoryName,
        acceptedRepositoryName, List.mem_append, List.mem_cons, List.mem_singleton,
        List.mem_flatMap, List.not_mem_nil, or_false] at he
      rcases he with ((rfl | rfl | rfl) | ⟨i, -, (rfl | rfl | rfl)⟩ | rfl | rfl) | rfl | rfl <;>
        rfl
    · intro hkeep hfound e he hename hre
      have h1 : enteredRepositoryName (CurrentDirectoryName w) w k =
          "Create new application" := by
        have := hkeep (submittedRepository w k)
        rw [hre, hename] at this
        exact this.symm
      have h2 := hfound e he
      rw [hename, ← h1] at h2
      cases hg : api.GetRepositoryByName project.Id
          (enteredRepositoryName (CurrentDirectoryName w) w k) <;>
        simp [hg] at h2 hfree
  · intro h
    refine ⟨_, _, AskForRepository_lookup fuel api project w h, findRepository_name _ _ h, ?_⟩
    intro e _ hename hre
    exact findRepository_name _ (api.ListRepositories project.Id) h (by rw [hre, hename])

/-- C10 (amended) at `shadowApi`, whose lists hold a project named `Create new project`
and an application named `Create new application`: selecting either label runs the
creation path to its end, and the result is the newly created entity, none of the listed
ones. -/
theorem create_label_shadows_search_witness :
    (∃ w2, AskForProject 1 shadowApi shadowProjectWorld =
        some (shadowApi.CreateProject (submittedProject shadowApi shadowProjectWorld 0), w2) ∧
      shadowProjectWorld.since w2 = createProjectTrace shadowApi shadowProjectWorld 0 ∧
      ((∀ p, (shadowApi.CreateProject p).Name = p.Name) →
        (∀ e ∈ shadowApi.ListProjects, (shadowApi.GetProjectByName e.Name).isSome = true) →
        ∀ e ∈ shadowApi.ListProjects, e.Name = "Create new project" →
          shadowApi.CreateProject (submittedProject shadowApi shadowProjectWorld 0) ≠ e)) ∧
    (∃ w2, AskForRepository 1 shadowApi {} shadowRepositoryWorld =
        some (shadowApi.CreateRepository "" (submittedRepository shadowRepositoryWorld 0),
          w2) ∧
      shadowRepositoryWorld.since w2 =
        createRepositoryTrace shadowApi {} shadowRepositoryWorld 0 ∧
      (∀ e ∈ shadowRepositoryWorld.since w2, e.isConfirm = false) ∧
      ((∀ p, (shadowApi.CreateRepository "" p).Name = p.Name) →
        (∀ e ∈ shadowApi.ListRepositories "",
          (shadowApi.GetRepositoryByName "" e.Name).isSome = true) →
        ∀ e ∈ shadowApi.ListRepositories "", e.Name = "Create new application" →
          shadowApi.CreateRepository "" (submittedRepository shadowRepositoryWorld 0) ≠ e)) ∧
    (∀ p, (shadowApi.CreateProject p).Name = p.Name) ∧
    (∀ e ∈ shadowApi.ListProjects, (shadowApi.GetProjectByName e.Name).isSome = true) ∧
    (∀ p, (shadowApi.CreateRepository "" p).Name = p.Name) ∧
    (∀ e ∈ shadowApi.ListRepositories "",
      (shadowApi.GetRepositoryByName "" e.Name).isSome = true) :=
  ⟨((create_label_shadows_search 1 shadowApi {} shadowProjectWorld).1.1 (by decide)).1 0
      (by decide) (by decide) (by decide),
    ((create_label_shadows_search 1 shadowApi {} shadowRepositoryWorld).2.1 (by decide)).1 0
      (by decide) (by decide) (by decide),
    fun _ => rfl, by decide, fun _ => rfl, by decide⟩

end Qovery
